import Mathlib

/-!
Verification of the room playback synchronization and broadcast engine of
simple-stream-party, shallowly embedded from the TypeScript source
(`src/main.ts` / server module and `src/playback-dedupe.ts`).

Timestamps (milliseconds) are modelled as rationals.  Values that flow
through JavaScript `number` comparisons where `NaN` / `Infinity` matter
(seek targets and stored playback positions) are modelled by `JsNum`,
which carries the exact JS comparison/arithmetic semantics the code uses.
JS string operations `trim()` and `slice(0, 32)` are modelled on the
character list of the string.
-/

namespace StreamParty

/-- JavaScript `number` values relevant to the playback code: `NaN`,
`Infinity`, `-Infinity`, or a finite value (a rational). -/
inductive JsNum where
  | nan : JsNum
  | posInf : JsNum
  | negInf : JsNum
  | fin : ℚ → JsNum
deriving DecidableEq, Repr

namespace JsNum

/-- JS `x < 0` (false for `NaN`). -/
def ltZero : JsNum → Bool
  | nan => false
  | posInf => false
  | negInf => true
  | fin v => decide (v < 0)

/-- JS subtraction `x - y`. -/
def sub : JsNum → JsNum → JsNum
  | nan, _ => nan
  | _, nan => nan
  | posInf, posInf => nan
  | posInf, _ => posInf
  | negInf, negInf => nan
  | negInf, _ => negInf
  | fin _, posInf => negInf
  | fin _, negInf => posInf
  | fin a, fin b => fin (a - b)

/-- JS `Math.abs`. -/
def abs : JsNum → JsNum
  | nan => nan
  | posInf => posInf
  | negInf => posInf
  | fin v => fin |v|

/-- JS `x > q` for a finite rational bound `q` (false for `NaN`). -/
def gtR : JsNum → ℚ → Bool
  | nan, _ => false
  | posInf, _ => true
  | negInf, _ => false
  | fin v, q => decide (q < v)

/-- JS `x + q` for a finite rational `q`. -/
def addFin : JsNum → ℚ → JsNum
  | nan, _ => nan
  | posInf, _ => posInf
  | negInf, _ => negInf
  | fin v, q => fin (v + q)

/-- JS `Math.max(0, x)` (`NaN` propagates). -/
def max0 : JsNum → JsNum
  | nan => nan
  | posInf => posInf
  | negInf => fin 0
  | fin v => fin (max 0 v)

end JsNum

/-- Model of JS `String.prototype.trim`: drop whitespace from both ends. -/
def jsTrim (s : String) : String :=
  String.mk (((s.data.dropWhile Char.isWhitespace).reverse.dropWhile
    Char.isWhitespace).reverse)

/-- Model of JS `String.prototype.slice(0, 32)`: first 32 characters. -/
def jsSlice32 (s : String) : String :=
  String.mk (s.data.take 32)

/-- `SEEK_EPSILON_SEC = 1` -/
def SEEK_EPSILON_SEC : ℚ := 1

/-- `CONTROL_LEASE_MS = 2000` -/
def CONTROL_LEASE_MS : ℚ := 2000

/-- `SEEK_PAUSE_NOISE_WINDOW_MS = 500` -/
def SEEK_PAUSE_NOISE_WINDOW_MS : ℚ := 500

inductive PlaybackAction where
  | play
  | pause
  | seek
  | changeVideo
deriving DecidableEq, Repr

/-- `type PlaybackState` from the server module. -/
structure PlaybackState where
  videoId : String
  videoUrl : String
  playbackTimeSec : JsNum
  isPlaying : Bool
  lastUpdatedAtMs : ℚ
deriving DecidableEq, Repr

/-- `type Room` from the server module.  `members` is the JS `Set`
(insertion order, no duplicates by construction), `memberProfiles` the JS
`Map` from user id to nickname (the stored `MemberProfile.userId` always
equals the key, so only the nickname is kept as the value). -/
structure Room where
  id : String
  creatorId : String
  inviteToken : String
  members : List String
  memberProfiles : List (String × String)
  playback : PlaybackState
  createdAtMs : ℚ
  revision : ℕ
  activeControllerId : Option String
  activeControllerUntilMs : ℚ
deriving DecidableEq, Repr

/-- JS `Map.get` (the lists only ever hold one entry per key). -/
def mapGet {α : Type} : List (String × α) → String → Option α
  | [], _ => none
  | e :: t, k => if e.1 = k then some e.2 else mapGet t k

/-- JS `Map.set`: update in place when the key is present, else append. -/
def mapSet {α : Type} : List (String × α) → String → α → List (String × α)
  | [], k, v => [(k, v)]
  | e :: t, k, v => if e.1 = k then (k, v) :: t else e :: mapSet t k v

/-- JS `Map.delete`. -/
def mapDel {α : Type} : List (String × α) → String → List (String × α)
  | [], _ => []
  | e :: t, k => if e.1 = k then mapDel t k else e :: mapDel t k

/-- JS `Set.add`. -/
def setAdd (s : List String) (x : String) : List String :=
  if x ∈ s then s else s ++ [x]

/-- `normalizeNickname`: trim; empty means invalid; else first 32 chars. -/
def normalizeNickname (value : Option String) : Option String :=
  match value with
  | none => none
  | some v =>
    let trimmed := jsTrim v
    if trimmed = "" then none
    else some (jsSlice32 trimmed)

/-- `getMemberProfile`: look up the profile, inserting the fallback
(nickname = user id) when absent.  Returns the nickname together with the
possibly-updated room (the source mutates `room.memberProfiles`). -/
def getMemberProfile (room : Room) (userId : String) : String × Room :=
  match mapGet room.memberProfiles userId with
  | some nick => (nick, room)
  | none =>
    (userId,
     { room with memberProfiles := mapSet room.memberProfiles userId userId })

inductive SetNickResult where
  | updated
  | unchanged
  | invalid
deriving DecidableEq, Repr

/-- `setNicknameForUser`. -/
def setNicknameForUser (room : Room) (userId : String) (nickname : String) :
    SetNickResult × Room :=
  match normalizeNickname (some nickname) with
  | none => (SetNickResult.invalid, room)
  | some nextNickname =>
    let cur := getMemberProfile room userId
    if cur.1 = nextNickname then (SetNickResult.unchanged, cur.2)
    else (SetNickResult.updated,
          { cur.2 with
              memberProfiles := mapSet cur.2.memberProfiles userId nextNickname })

/-- `normalizePlayback` with the wall clock (`nowMs()`) passed explicitly. -/
def normalizePlayback (playback : PlaybackState) (currentMs : ℚ) :
    PlaybackState :=
  if playback.isPlaying = false then playback
  else
    let elapsedSec := max 0 ((currentMs - playback.lastUpdatedAtMs) / 1000)
    { playback with
        playbackTimeSec := (playback.playbackTimeSec.addFin elapsedSec).max0
        lastUpdatedAtMs := currentMs }

/-- `type VideoItem` (the fields `applyPlaybackAction` reads). -/
structure VideoItem where
  id : String
  fileName : String
  sizeBytes : ℕ
  modifiedAtMs : ℚ
  streamPath : String
deriving DecidableEq, Repr

/-- `acquireControlLease`, with `nowMs()` passed explicitly.  Returns the
grant flag and the updated room. -/
def acquireControlLease (room : Room) (userId : String) (now : ℚ) :
    Bool × Room :=
  if room.activeControllerId = none ∨ room.activeControllerId = some userId
      ∨ now > room.activeControllerUntilMs then
    (true,
     { room with
         activeControllerId := some userId
         activeControllerUntilMs := now + CONTROL_LEASE_MS })
  else
    (false, room)

/-- `applyPlaybackAction`, with the wall clock and the video store
(`getVideoById`) passed explicitly.  `atTimeSec = none` models an absent or
non-`number` payload field (`typeof atTimeSec !== "number"`), and
`videoId = none` an absent field (the JS falsiness test `!videoId` also
treats the empty string as missing).  Returns the updated room and either
an error string or the `changed` flag. -/
def applyPlaybackAction (room : Room) (action : PlaybackAction)
    (atTimeSec : Option JsNum) (videoId : Option String) (now : ℚ)
    (store : String → Option VideoItem) : Room × Except String Bool :=
  let playback := normalizePlayback room.playback now
  match action with
  | PlaybackAction.play =>
    if playback.isPlaying = false then
      ({ room with
           playback := { playback with isPlaying := true, lastUpdatedAtMs := now }
           revision := room.revision + 1 },
       Except.ok true)
    else (room, Except.ok false)
  | PlaybackAction.pause =>
    if playback.isPlaying then
      ({ room with
           playback := { playback with isPlaying := false, lastUpdatedAtMs := now }
           revision := room.revision + 1 },
       Except.ok true)
    else (room, Except.ok false)
  | PlaybackAction.seek =>
    match atTimeSec with
    | none => (room, Except.error "invalid_seek_time")
    | some t =>
      if t.ltZero then (room, Except.error "invalid_seek_time")
      else if ((playback.playbackTimeSec.sub t).abs.gtR SEEK_EPSILON_SEC) then
        ({ room with
             playback := { playback with playbackTimeSec := t, lastUpdatedAtMs := now }
             revision := room.revision + 1 },
         Except.ok true)
      else (room, Except.ok false)
  | PlaybackAction.changeVideo =>
    match videoId with
    | none => (room, Except.error "missing_video_id")
    | some vid =>
      if vid = "" then (room, Except.error "missing_video_id")
      else
        match store vid with
        | none => (room, Except.error "video_not_found")
        | some video =>
          if ¬ (playback.videoId = video.id) then
            ({ room with
                 playback :=
                   { videoId := video.id
                     videoUrl := video.streamPath
                     playbackTimeSec := JsNum.fin 0
                     isPlaying := false
                     lastUpdatedAtMs := now }
                 revision := room.revision + 1 },
             Except.ok true)
          else (room, Except.ok false)

/-- The room built by `POST /rooms/from-video` (fresh ids passed in). -/
def createRoom (roomId creatorId inviteToken : String)
    (creatorNickname : Option String) (video : VideoItem) (now : ℚ) : Room :=
  { id := roomId
    creatorId := creatorId
    inviteToken := inviteToken
    members := [creatorId]
    memberProfiles :=
      [(creatorId, (normalizeNickname creatorNickname).getD creatorId)]
    playback :=
      { videoId := video.id
        videoUrl := video.streamPath
        playbackTimeSec := JsNum.fin 0
        isPlaying := false
        lastUpdatedAtMs := now }
    createdAtMs := now
    revision := 1
    activeControllerId := some creatorId
    activeControllerUntilMs := now + CONTROL_LEASE_MS }

/-- `type DedupablePlaybackAction` from `playback-dedupe.ts`. -/
inductive DedupablePlaybackAction where
  | play
  | pause
  | seek
deriving DecidableEq, Repr

/-- `type PlaybackBurstEvent<TMeta>` from `playback-dedupe.ts`. -/
structure PlaybackBurstEvent (TMeta : Type) where
  action : DedupablePlaybackAction
  playbackTimeSec : JsNum
  meta : TMeta
deriving DecidableEq, Repr

/-- `dedupePlaybackBurst` from `playback-dedupe.ts`: lists of length at
most one pass through; otherwise the backwards scan for a `seek`
(`events.reverse.find?`) keeps only the final seek, and a burst with no
seek passes through whole. -/
def dedupePlaybackBurst {TMeta : Type}
    (events : List (PlaybackBurstEvent TMeta)) :
    List (PlaybackBurstEvent TMeta) :=
  if events.length ≤ 1 then events
  else
    match events.reverse.find?
        (fun e => e.action = DedupablePlaybackAction.seek) with
    | some e => [e]
    | none => events

/-- The conversion the ws playback handler performs when it enqueues an
applied `play`/`pause`/`seek` (never reached for `changeVideo`). -/
def PlaybackAction.toDedupable : PlaybackAction → DedupablePlaybackAction
  | PlaybackAction.play => DedupablePlaybackAction.play
  | PlaybackAction.pause => DedupablePlaybackAction.pause
  | _ => DedupablePlaybackAction.seek

def DedupablePlaybackAction.toPlayback :
    DedupablePlaybackAction → PlaybackAction
  | DedupablePlaybackAction.play => PlaybackAction.play
  | DedupablePlaybackAction.pause => PlaybackAction.pause
  | DedupablePlaybackAction.seek => PlaybackAction.seek

/-- `type ChatMessage`. -/
structure ChatMessage where
  id : String
  roomId : String
  userId : String
  userDisplayName : String
  message : String
  createdAtMs : ℚ
  replyToMessageId : Option String
deriving DecidableEq, Repr

/-- The per-room mutable server state the ws handlers touch: the room, its
chat log (`chatByRoom`), the recent-pause map and pending playback bursts
(both keyed by user id; the `roomId:userId` key prefix is fixed within one
room), and the open connections (`socketsByRoom` together with
`socketUserByConnection`), as pairs of connection id and user id. -/
structure EngineState where
  room : Room
  chat : List ChatMessage
  recentPause : List (String × ℚ)
  pendingBursts : List (String × List (PlaybackBurstEvent Unit))
  sockets : List (ℕ × String)
deriving DecidableEq, Repr

/-- Outbound protocol traffic produced by a handler, abstracted to what
the claims observe: error messages to the caller, room-state pushes to the
caller, broadcasts to the room (excluding the caller where the source
does), chat fan-out, welcome, pong. -/
inductive Outbound where
  | errorMsg : String → Outbound
  | stateToCaller : String → String → Option PlaybackAction → Outbound
  | broadcast : String → String → Option PlaybackAction → Outbound
  | chatMsg : ChatMessage → ℕ → Outbound
  | welcome : Room → List ChatMessage → Outbound
  | pong : Outbound
deriving DecidableEq, Repr

/-- `flushPendingPlaybackBurst`: when the debounce timer fires, drop the
pending entry, dedupe the queued events and broadcast each survivor. -/
def flushPendingPlaybackBurst (s : EngineState) (userId : String) :
    EngineState × List Outbound :=
  match mapGet s.pendingBursts userId with
  | none => (s, [])
  | some pending =>
    ({ s with pendingBursts := mapDel s.pendingBursts userId },
     (dedupePlaybackBurst pending).map
       (fun e => Outbound.broadcast "playback" userId (some e.action.toPlayback)))

/-- `enqueuePlaybackBurstEvent` (timer bookkeeping aside: the queue entry
is created or extended; the flush is modelled as a separate call). -/
def enqueuePlaybackBurstEvent (s : EngineState) (userId : String)
    (action : DedupablePlaybackAction) : EngineState :=
  let event : PlaybackBurstEvent Unit :=
    { action := action
      playbackTimeSec := s.room.playback.playbackTimeSec
      meta := () }
  match mapGet s.pendingBursts userId with
  | none =>
    { s with pendingBursts := mapSet s.pendingBursts userId [event] }
  | some pending =>
    { s with pendingBursts := mapSet s.pendingBursts userId (pending ++ [event]) }

/-- `removeMemberFromRoom` (the globals it clears live in `EngineState`). -/
def removeMemberFromRoom (s : EngineState) (userId : String) :
    Bool × EngineState :=
  if userId ∈ s.room.members then
    let room0 := s.room
    let room1 :=
      { room0 with
          members := room0.members.erase userId
          memberProfiles := mapDel room0.memberProfiles userId }
    let room2 :=
      if room1.activeControllerId = some userId then
        { room1 with activeControllerId := none, activeControllerUntilMs := 0 }
      else room1
    (true,
     { s with
         room := { room2 with revision := room2.revision + 1 }
         recentPause := mapDel s.recentPause userId
         pendingBursts := mapDel s.pendingBursts userId })
  else (false, s)

/-- The ws `playback` message branch (source lines 1082-1204), with the
wall clock, video store and the outbound sends made explicit.  A lease
denial returns silently; a validation error is reported without touching
anything but the already-refreshed lease; an applied event updates the
recent-pause bookkeeping, runs the resume-after-scrub heuristic, and
either broadcasts a video change immediately or echoes to the caller and
enqueues the event for debounced broadcast. -/
def handlePlaybackMsg (s : EngineState) (userId : String)
    (action : PlaybackAction) (atTimeSec : Option JsNum)
    (videoId : Option String) (now : ℚ) (store : String → Option VideoItem) :
    EngineState × List Outbound :=
  let playbackBeforeAction := s.room.playback
  let lease := acquireControlLease s.room userId now
  if lease.1 = false then (s, [])
  else
    let s1 : EngineState := { s with room := lease.2 }
    let applied := applyPlaybackAction s1.room action atTimeSec videoId now store
    match applied.2 with
    | Except.error e => ({ s1 with room := applied.1 }, [Outbound.errorMsg e])
    | Except.ok false => ({ s1 with room := applied.1 }, [])
    | Except.ok true =>
      let s2 : EngineState := { s1 with room := applied.1 }
      let s3 : EngineState :=
        if action = PlaybackAction.pause ∧ playbackBeforeAction.isPlaying then
          { s2 with recentPause := mapSet s2.recentPause userId now }
        else if ¬ (action = PlaybackAction.seek) then
          { s2 with recentPause := mapDel s2.recentPause userId }
        else s2
      let s4 : EngineState :=
        if action = PlaybackAction.seek ∧ s3.room.playback.isPlaying = false then
          let s5 : EngineState :=
            match mapGet s3.recentPause userId with
            | some pausedAtMs =>
              if now - pausedAtMs ≤ SEEK_PAUSE_NOISE_WINDOW_MS then
                { s3 with room :=
                    { s3.room with
                        playback :=
                          { s3.room.playback with
                              isPlaying := true
                              lastUpdatedAtMs := now }
                        revision := s3.room.revision + 1 } }
              else s3
            | none => s3
          { s5 with recentPause := mapDel s5.recentPause userId }
        else s3
      if action = PlaybackAction.changeVideo then
        (s4,
         [Outbound.stateToCaller "video_change" userId (some action),
          Outbound.broadcast "video_change" userId (some action)])
      else
        (enqueuePlaybackBurstEvent s4 userId action.toDedupable,
         [Outbound.stateToCaller "playback" userId (some action)])

/-- The ws `chat` message branch (source lines 1207-1263). -/
def handleChatMsg (s : EngineState) (userId : String) (message : String)
    (replyToMessageId : Option String) (now : ℚ) (freshId : String) :
    EngineState × List Outbound :=
  let trimmed := jsTrim message
  if trimmed = "" then (s, [Outbound.errorMsg "message_empty"])
  else
    let reply := replyToMessageId.map jsTrim
    if reply = some "" then (s, [Outbound.errorMsg "invalid_reply_message_id"])
    else
      match reply with
      | some r =>
        if ¬ (s.chat.any (fun m => m.id = r)) then
          (s, [Outbound.errorMsg "reply_message_not_found"])
        else
          let gp := getMemberProfile s.room userId
          let newMessage : ChatMessage :=
            { id := freshId
              roomId := gp.2.id
              userId := userId
              userDisplayName := gp.1
              message := trimmed
              createdAtMs := now
              replyToMessageId := some r }
          let chat1 := s.chat ++ [newMessage]
          let chat2 := if chat1.length > 200 then chat1.drop 1 else chat1
          let room1 := { gp.2 with revision := gp.2.revision + 1 }
          ({ s with room := room1, chat := chat2 },
           [Outbound.chatMsg newMessage room1.revision])
      | none =>
        let gp := getMemberProfile s.room userId
        let newMessage : ChatMessage :=
          { id := freshId
            roomId := gp.2.id
            userId := userId
            userDisplayName := gp.1
            message := trimmed
            createdAtMs := now
            replyToMessageId := none }
        let chat1 := s.chat ++ [newMessage]
        let chat2 := if chat1.length > 200 then chat1.drop 1 else chat1
        let room1 := { gp.2 with revision := gp.2.revision + 1 }
        ({ s with room := room1, chat := chat2 },
         [Outbound.chatMsg newMessage room1.revision])

/-- The ws `profile` message branch (source lines 1055-1080). -/
def handleProfileMsg (s : EngineState) (userId : String)
    (action : String) (nickname : String) : EngineState × List Outbound :=
  if ¬ (action = "setNickname") then
    (s, [Outbound.errorMsg "invalid_profile_action"])
  else
    let res := setNicknameForUser s.room userId nickname
    match res.1 with
    | SetNickResult.invalid =>
      ({ s with room := res.2 }, [Outbound.errorMsg "invalid_nickname"])
    | SetNickResult.unchanged => ({ s with room := res.2 }, [])
    | SetNickResult.updated =>
      let room1 := { res.2 with revision := res.2.revision + 1 }
      ({ s with room := room1 },
       [Outbound.broadcast "nickname_change" userId none,
        Outbound.stateToCaller "nickname_change" userId none])

/-- Inbound ws client messages (parsed payloads).  The profile action is
kept as a raw string since the source validates it at runtime. -/
inductive WsClientMessage where
  | playback : PlaybackAction → Option JsNum → Option String → WsClientMessage
  | chat : String → Option String → WsClientMessage
  | sync : WsClientMessage
  | profile : String → String → WsClientMessage
  | ping : WsClientMessage
deriving DecidableEq, Repr

/-- The ws message dispatcher (source lines 1029-1264). -/
def handleMessage (s : EngineState) (userId : String) (msg : WsClientMessage)
    (now : ℚ) (store : String → Option VideoItem) (freshId : String) :
    EngineState × List Outbound :=
  match msg with
  | WsClientMessage.ping => (s, [Outbound.pong])
  | WsClientMessage.sync =>
    let room1 := { s.room with playback := normalizePlayback s.room.playback now }
    ({ s with room := room1 }, [Outbound.stateToCaller "sync" userId none])
  | WsClientMessage.profile action nickname =>
    handleProfileMsg s userId action nickname
  | WsClientMessage.playback action atTimeSec videoId =>
    handlePlaybackMsg s userId action atTimeSec videoId now store
  | WsClientMessage.chat message replyToMessageId =>
    handleChatMsg s userId message replyToMessageId now freshId

/-- The ws admission tail after the token checks (source lines 1003-1027):
the member is added *before* the nickname is validated; an invalid
nickname rejects the connection but leaves the just-added member in place
and does not bump the revision; otherwise playback is re-extrapolated, the
revision bumped, the socket registered, and welcome plus a join broadcast
are sent. -/
def handleJoin (s : EngineState) (connId : ℕ) (userId : String)
    (nickname : Option String) (now : ℚ) : EngineState × List Outbound :=
  let room0 := { s.room with members := setAdd s.room.members userId }
  let withNick : (Room × Option String) :=
    match nickname with
    | some nick =>
      if ¬ (nick = "") then
        let res := setNicknameForUser room0 userId nick
        if res.1 = SetNickResult.invalid then (res.2, some "invalid_nickname")
        else (res.2, none)
      else ((getMemberProfile room0 userId).2, none)
    | none => ((getMemberProfile room0 userId).2, none)
  match withNick.2 with
  | some err => ({ s with room := withNick.1 }, [Outbound.errorMsg err])
  | none =>
    let room2 :=
      { withNick.1 with
          playback := normalizePlayback withNick.1.playback now
          revision := withNick.1.revision + 1 }
    ({ s with room := room2, sockets := s.sockets ++ [(connId, userId)] },
     [Outbound.welcome room2 s.chat,
      Outbound.broadcast "join" userId none])

/-- The ws close handler (source lines 1266-1303): drop the connection;
only when no other connection of the same user remains in the room is the
user removed (with a leave broadcast when a removal happened). -/
def handleClose (s : EngineState) (connId : ℕ) (userId : String) :
    EngineState × List Outbound :=
  let s1 : EngineState :=
    { s with sockets := s.sockets.filter (fun c => ¬ (c.1 = connId)) }
  if s1.sockets.any (fun c => c.2 = userId) then (s1, [])
  else
    let gp := getMemberProfile s1.room userId
    let s2 : EngineState := { s1 with room := gp.2 }
    let rm := removeMemberFromRoom s2 userId
    if rm.1 then (rm.2, [Outbound.broadcast "leave" userId none])
    else (rm.2, [])

/-! ### Sample values used by the concrete witnesses -/

def sampleVideo : VideoItem :=
  { id := "vid1"
    fileName := "movie.mp4"
    sizeBytes := 100
    modifiedAtMs := 0
    streamPath := "/videos/vid1/stream" }

def sampleVideo2 : VideoItem :=
  { id := "vid2"
    fileName := "other.mp4"
    sizeBytes := 50
    modifiedAtMs := 0
    streamPath := "/videos/vid2/stream" }

def sampleStore : String → Option VideoItem := fun i =>
  if i = "vid1" then some sampleVideo
  else if i = "vid2" then some sampleVideo2
  else none

/-- The room `createRoom "room1" "alice" "tok" none sampleVideo 0`
produces, spelled out with literal fields. -/
def sampleRoom : Room :=
  { id := "room1"
    creatorId := "alice"
    inviteToken := "tok"
    members := ["alice"]
    memberProfiles := [("alice", "alice")]
    playback :=
      { videoId := "vid1"
        videoUrl := "/videos/vid1/stream"
        playbackTimeSec := JsNum.fin 0
        isPlaying := false
        lastUpdatedAtMs := 0 }
    createdAtMs := 0
    revision := 1
    activeControllerId := some "alice"
    activeControllerUntilMs := 2000 }

def samplePlayingRoom : Room :=
  { sampleRoom with
      playback := { sampleRoom.playback with isPlaying := true } }

def sampleState : EngineState :=
  { room := sampleRoom
    chat := []
    recentPause := []
    pendingBursts := []
    sockets := [(0, "alice")] }

/-! ### Helper lemmas on the little map/list operations -/

theorem mapGet_mapSet_self {α : Type} (m : List (String × α)) (k : String)
    (v : α) : mapGet (mapSet m k v) k = some v := by
  induction m with
  | nil => simp [mapSet, mapGet]
  | cons e t ih =>
    by_cases he : e.1 = k
    · simp [mapSet, mapGet, he]
    · simp [mapSet, mapGet, he, ih]

theorem mapDel_mapSet_self {α : Type} (m : List (String × α)) (k : String)
    (v : α) : mapDel (mapSet m k v) k = mapDel m k := by
  induction m with
  | nil => simp [mapSet, mapDel]
  | cons e t ih =>
    by_cases he : e.1 = k
    · simp [mapSet, mapDel, he]
    · simp [mapSet, mapDel, he, ih]

/-- The backwards scan of `dedupePlaybackBurst` finds the last match. -/
theorem reverse_find?_eq_getLast?_filter {α : Type} (l : List α)
    (p : α → Bool) : l.reverse.find? p = (l.filter p).getLast? := by
  induction l with
  | nil => rfl
  | cons a t ih =>
    rw [List.reverse_cons, List.find?_append, ih, List.filter_cons]
    by_cases hpa : p a = true
    · simp only [hpa, if_true]
      cases hfl : t.filter p with
      | nil => simp [List.find?, hpa]
      | cons e rest =>
        have hne : (e :: rest).getLast? ≠ none := by
          simp [List.getLast?_eq_none_iff]
        obtain ⟨x, hx⟩ := Option.ne_none_iff_exists'.mp hne
        simp [hx, List.getLast?_cons_cons]
    · simp only [hpa, if_false]
      simp [List.find?, hpa]

/-- Branch analysis of `dedupePlaybackBurst`: the result is either the
input itself or a singleton drawn from an input of length at least two. -/
theorem dedupePlaybackBurst_cases {TMeta : Type}
    (es : List (PlaybackBurstEvent TMeta)) :
    dedupePlaybackBurst es = es ∨
    ∃ e, e ∈ es ∧ dedupePlaybackBurst es = [e] ∧ 2 ≤ es.length := by
  unfold dedupePlaybackBurst
  split
  case isTrue h => exact Or.inl rfl
  case isFalse h =>
    cases hf : es.reverse.find?
        (fun e => e.action = DedupablePlaybackAction.seek) with
    | none => exact Or.inl rfl
    | some e =>
      refine Or.inr ⟨e, ?_, rfl, by omega⟩
      have := List.mem_of_find?_eq_some hf
      simpa using this

/-- A list of length at most one passes through unchanged. -/
theorem dedupePlaybackBurst_short {TMeta : Type}
    (es : List (PlaybackBurstEvent TMeta)) (h : es.length ≤ 1) :
    dedupePlaybackBurst es = es := by
  unfold dedupePlaybackBurst
  simp [h]

/-- C2: `extrapolate` (`normalizePlayback`) returns a paused state
unchanged; on a playing state with finite stored position `q ≥ 0` and
stored timestamp `t1 = lastUpdatedAtMs`, extrapolating at `t2 ≥ t1` yields
position `q + (t2 - t1)/1000` seconds (elapsed milliseconds converted to
seconds) and `lastUpdatedAtMs = t2`; extrapolating at `t2 = t1` leaves the
position unchanged. -/
theorem c2_extrapolate_spec (p : PlaybackState) (t2 : ℚ) :
    (p.isPlaying = false → normalizePlayback p t2 = p) ∧
    (∀ q : ℚ, p.isPlaying = true → p.playbackTimeSec = JsNum.fin q → 0 ≤ q →
      p.lastUpdatedAtMs ≤ t2 →
      (normalizePlayback p t2).playbackTimeSec
          = JsNum.fin (q + (t2 - p.lastUpdatedAtMs) / 1000) ∧
      (normalizePlayback p t2).lastUpdatedAtMs = t2 ∧
      (t2 = p.lastUpdatedAtMs →
        (normalizePlayback p t2).playbackTimeSec = p.playbackTimeSec)) := by
  constructor
  · intro h
    simp [normalizePlayback, h]
  · intro q hplay hpos hq hle
    have e0 : (0 : ℚ) ≤ (t2 - p.lastUpdatedAtMs) / 1000 :=
      div_nonneg (sub_nonneg.mpr hle) (by norm_num)
    refine ⟨?_, ?_, ?_⟩
    · simp [normalizePlayback, hplay, hpos, JsNum.addFin, JsNum.max0,
        max_eq_right e0, max_eq_right (add_nonneg hq e0)]
    · simp [normalizePlayback, hplay]
    · intro ht
      simp [normalizePlayback, hplay, hpos, JsNum.addFin, JsNum.max0, ht,
        max_eq_right hq]

def samplePlaying5 : PlaybackState :=
  { videoId := "vid1"
    videoUrl := "/videos/vid1/stream"
    playbackTimeSec := JsNum.fin 5
    isPlaying := true
    lastUpdatedAtMs := 1000 }

/-- Witness for C2 at a concrete input: playing at 5 s, stamped at
1000 ms, extrapolated at 3000 ms lands on 7 s. -/
theorem c2_witness :
    (normalizePlayback samplePlaying5 3000).playbackTimeSec = JsNum.fin 7 ∧
    (normalizePlayback samplePlaying5 3000).lastUpdatedAtMs = 3000 := by
  have h := (c2_extrapolate_spec samplePlaying5 3000).2 5 rfl rfl
    (by norm_num) (by norm_num [samplePlaying5])
  refine ⟨?_, h.2.1⟩
  rw [h.1]
  norm_num [samplePlaying5]

def samplePlayEvent : PlaybackBurstEvent Unit :=
  { action := DedupablePlaybackAction.play
    playbackTimeSec := JsNum.fin 0
    meta := () }

def samplePauseEvent : PlaybackBurstEvent Unit :=
  { action := DedupablePlaybackAction.pause
    playbackTimeSec := JsNum.fin 0
    meta := () }

def sampleSeekEvent : PlaybackBurstEvent Unit :=
  { action := DedupablePlaybackAction.seek
    playbackTimeSec := JsNum.fin 30
    meta := () }

def sampleBurst : List (PlaybackBurstEvent Unit) :=
  [samplePlayEvent, samplePauseEvent, sampleSeekEvent]

def sampleBurstState : EngineState :=
  { sampleState with pendingBursts := [("alice", sampleBurst)] }

/-- C4: burst deduplication — a queue of at most one event is returned
unchanged; if any queued event is a seek, the result is exactly the last
seek as the single representative (stated via the last element of the
seek-filtered queue); with no seek the whole queue passes through; and
the spec's burst play, pause, seek(30) flushes to exactly one broadcast,
the seek. -/
theorem c4_burst_dedupe_spec :
    (∀ (es : List (PlaybackBurstEvent Unit)), es.length ≤ 1 →
        dedupePlaybackBurst es = es) ∧
    (∀ (es : List (PlaybackBurstEvent Unit)) (e : PlaybackBurstEvent Unit),
        (es.filter
            (fun e => e.action = DedupablePlaybackAction.seek)).getLast?
            = some e →
        dedupePlaybackBurst es = [e]) ∧
    (∀ (es : List (PlaybackBurstEvent Unit)),
        es.filter (fun e => e.action = DedupablePlaybackAction.seek) = [] →
        dedupePlaybackBurst es = es) ∧
    (dedupePlaybackBurst sampleBurst = [sampleSeekEvent] ∧
     flushPendingPlaybackBurst sampleBurstState "alice"
        = ({ sampleBurstState with pendingBursts := [] },
           [Outbound.broadcast "playback" "alice"
              (some PlaybackAction.seek)])) := by
  refine ⟨fun es h => dedupePlaybackBurst_short es h, ?_, ?_, ?_, ?_⟩
  · intro es e he
    by_cases h1 : es.length ≤ 1
    · cases es with
      | nil => simp at he
      | cons a t =>
        cases t with
        | nil =>
          rw [dedupePlaybackBurst_short _ h1]
          by_cases hpa : a.action = DedupablePlaybackAction.seek
          · simp [List.filter_cons, hpa] at he
            simp [he]
          · simp [List.filter_cons, hpa] at he
        | cons b r => simp at h1
    · unfold dedupePlaybackBurst
      rw [if_neg h1, reverse_find?_eq_getLast?_filter, he]
  · intro es he
    by_cases h1 : es.length ≤ 1
    · exact dedupePlaybackBurst_short es h1
    · unfold dedupePlaybackBurst
      rw [if_neg h1, reverse_find?_eq_getLast?_filter, he]
      rfl
  · decide
  · rfl

/-- Witness for C4 at concrete inputs: the spec burst keeps only the
final seek; a play-pause burst passes through whole; a singleton passes
through. -/
theorem c4_witness :
    dedupePlaybackBurst sampleBurst = [sampleSeekEvent] ∧
    dedupePlaybackBurst [samplePlayEvent, samplePauseEvent]
        = [samplePlayEvent, samplePauseEvent] ∧
    dedupePlaybackBurst [samplePlayEvent] = [samplePlayEvent] :=
  ⟨c4_burst_dedupe_spec.2.1 sampleBurst sampleSeekEvent (by decide),
   c4_burst_dedupe_spec.2.2.1 [samplePlayEvent, samplePauseEvent] (by decide),
   c4_burst_dedupe_spec.1 [samplePlayEvent] (by decide)⟩

/-- C10 (implicit): the burst reduction is idempotent, never lengthens
its input, and its output is a contiguous (infix) subsequence of the
input. -/
theorem c10_dedupe_algebraic :
    ∀ (TMeta : Type) (es : List (PlaybackBurstEvent TMeta)),
      dedupePlaybackBurst (dedupePlaybackBurst es) = dedupePlaybackBurst es ∧
      (dedupePlaybackBurst es).length ≤ es.length ∧
      List.IsInfix (dedupePlaybackBurst es) es := by
  intro TMeta es
  rcases dedupePlaybackBurst_cases es with h | ⟨e, hmem, h, hlen⟩
  · refine ⟨?_, ?_, ?_⟩
    · rw [h]
      exact h
    · rw [h]
    · rw [h]
  · refine ⟨?_, ?_, ?_⟩
    · rw [h]
      exact dedupePlaybackBurst_short [e] (by simp)
    · rw [h]
      simp only [List.length_singleton]
      omega
    · rw [h]
      obtain ⟨s, t, hst⟩ := List.append_of_mem hmem
      exact ⟨s, t, by rw [hst]; simp⟩

/-- `applyPlaybackAction` bumps the revision by exactly one when it
reports a change and returns the room untouched otherwise (including on
every validation error). -/
theorem applyPlaybackAction_cases (room : Room) (action : PlaybackAction)
    (atTimeSec : Option JsNum) (videoId : Option String) (now : ℚ)
    (store : String → Option VideoItem) (room' : Room)
    (r : Except String Bool)
    (h : applyPlaybackAction room action atTimeSec videoId now store
        = (room', r)) :
    (r = Except.ok true → room'.revision = room.revision + 1) ∧
    (¬ (r = Except.ok true) → room' = room) := by
  unfold applyPlaybackAction at h
  cases action <;> dsimp only at h <;> (repeat' split at h) <;>
    (injection h with h1 h2) <;> subst h1 <;> subst h2 <;> simp

/-- `getMemberProfile` touches only the profile map. -/
theorem getMemberProfile_fields (room : Room) (u : String) :
    ((getMemberProfile room u).2).revision = room.revision ∧
    ((getMemberProfile room u).2).members = room.members ∧
    ((getMemberProfile room u).2).playback = room.playback ∧
    ((getMemberProfile room u).2).activeControllerId
        = room.activeControllerId ∧
    ((getMemberProfile room u).2).activeControllerUntilMs
        = room.activeControllerUntilMs ∧
    ((getMemberProfile room u).2).id = room.id := by
  unfold getMemberProfile
  split <;> simp

/-- `setNicknameForUser` touches only the profile map. -/
theorem setNicknameForUser_fields (room : Room) (u n : String) :
    ((setNicknameForUser room u n).2).revision = room.revision ∧
    ((setNicknameForUser room u n).2).members = room.members ∧
    ((setNicknameForUser room u n).2).playback = room.playback ∧
    ((setNicknameForUser room u n).2).activeControllerId
        = room.activeControllerId ∧
    ((setNicknameForUser room u n).2).activeControllerUntilMs
        = room.activeControllerUntilMs ∧
    ((setNicknameForUser room u n).2).id = room.id := by
  have hgp := getMemberProfile_fields room u
  unfold setNicknameForUser
  split
  · simp
  · dsimp only
    split <;>
      simp [hgp.1, hgp.2.1, hgp.2.2.1, hgp.2.2.2.1, hgp.2.2.2.2.1,
        hgp.2.2.2.2.2]

/-- `setNicknameForUser` returns the room untouched when invalid. -/
theorem setNicknameForUser_invalid (room : Room) (u n : String)
    (h : (setNicknameForUser room u n).1 = SetNickResult.invalid) :
    (setNicknameForUser room u n).2 = room := by
  unfold setNicknameForUser at *
  split at h
  · rfl
  · dsimp only at h
    split at h <;> simp_all

/-- Pause while already paused is a strict no-op. -/
theorem applyPlaybackAction_pause_noop (room : Room) (now : ℚ)
    (store : String → Option VideoItem)
    (h : room.playback.isPlaying = false) :
    applyPlaybackAction room PlaybackAction.pause none none now store
        = (room, Except.ok false) := by
  unfold applyPlaybackAction
  simp [normalizePlayback, h]

/-- A seek within the epsilon of the current extrapolated position is a
strict no-op. -/
theorem applyPlaybackAction_seek_noop (room : Room) (t : JsNum) (now : ℚ)
    (store : String → Option VideoItem) (h0 : t.ltZero = false)
    (h1 : (((normalizePlayback room.playback now).playbackTimeSec.sub
        t).abs.gtR SEEK_EPSILON_SEC) = false) :
    applyPlaybackAction room PlaybackAction.seek (some t) none now store
        = (room, Except.ok false) := by
  unfold applyPlaybackAction
  simp [h0, h1]

/-- A `changeVideo` that resolves to the already-current video is a
strict no-op. -/
theorem applyPlaybackAction_changeVideo_noop (room : Room) (vid : String)
    (video : VideoItem) (now : ℚ) (store : String → Option VideoItem)
    (hvid : ¬ (vid = "")) (hstore : store vid = some video)
    (hid : room.playback.videoId = video.id) :
    applyPlaybackAction room PlaybackAction.changeVideo none (some vid) now
        store = (room, Except.ok false) := by
  unfold applyPlaybackAction
  have hnorm : (normalizePlayback room.playback now).videoId = video.id := by
    unfold normalizePlayback
    split <;> simp [hid]
  simp [hvid, hstore, hnorm]

/-- Join either rejects the nickname (no revision bump) or bumps the
revision by exactly one. -/
theorem handleJoin_revision (s : EngineState) (connId : ℕ) (u : String)
    (nick : Option String) (now : ℚ) :
    ((handleJoin s connId u nick now).2
        = [Outbound.errorMsg "invalid_nickname"] ∧
      ((handleJoin s connId u nick now).1).room.revision
          = s.room.revision) ∨
    ((∀ e, ¬ (Outbound.errorMsg e ∈ (handleJoin s connId u nick now).2)) ∧
      ((handleJoin s connId u nick now).1).room.revision
          = s.room.revision + 1) := by
  have hmem :
      ({ s.room with members := setAdd s.room.members u } : Room).revision
        = s.room.revision := rfl
  unfold handleJoin
  cases nick with
  | none =>
    right
    have hgp := (getMemberProfile_fields
      { s.room with members := setAdd s.room.members u } u).1
    constructor
    · intro e
      simp
    · simp [hgp]
  | some n =>
    by_cases hn : n = ""
    · right
      have hgp := (getMemberProfile_fields
        { s.room with members := setAdd s.room.members u } u).1
      constructor
      · intro e
        simp [hn]
      · simp [hn, hgp]
    · by_cases hi : (setNicknameForUser
          { s.room with members := setAdd s.room.members u } u n).1
          = SetNickResult.invalid
      · left
        have hr := setNicknameForUser_invalid
          { s.room with members := setAdd s.room.members u } u n hi
        constructor
        · simp [hn, hi]
        · simp [hn, hi, hr]
      · right
        have hf := (setNicknameForUser_fields
          { s.room with members := setAdd s.room.members u } u n).1
        constructor
        · intro e
          simp [hn, hi]
        · simp [hn, hi, hf]

/-- Leave removes a present member with a single revision bump and is the
identity for an absent one. -/
theorem removeMemberFromRoom_spec (s : EngineState) (u : String) :
    (u ∈ s.room.members →
      (removeMemberFromRoom s u).1 = true ∧
      ((removeMemberFromRoom s u).2).room.revision = s.room.revision + 1) ∧
    (¬ (u ∈ s.room.members) → removeMemberFromRoom s u = (false, s)) := by
  unfold removeMemberFromRoom
  constructor
  · intro hmem
    rw [if_pos hmem]
    constructor
    · rfl
    · dsimp only
      split <;> simp
  · intro hmem
    rw [if_neg hmem]

/-- Profile message: an unknown action is rejected with no state change;
`setNickname` bumps the revision by one exactly when the nickname is
updated. -/
theorem handleProfileMsg_revision (s : EngineState) (u a n : String) :
    (¬ (a = "setNickname") →
      handleProfileMsg s u a n
        = (s, [Outbound.errorMsg "invalid_profile_action"])) ∧
    (a = "setNickname" →
      (setNicknameForUser s.room u n).1 = SetNickResult.updated →
      ((handleProfileMsg s u a n).1).room.revision = s.room.revision + 1) ∧
    (a = "setNickname" →
      ¬ ((setNicknameForUser s.room u n).1 = SetNickResult.updated) →
      ((handleProfileMsg s u a n).1).room.revision = s.room.revision) := by
  have hf := (setNicknameForUser_fields s.room u n).1
  refine ⟨?_, ?_, ?_⟩
  · intro ha
    unfold handleProfileMsg
    rw [if_pos ha]
  · intro ha hu
    unfold handleProfileMsg
    rw [if_neg (by simp [ha])]
    dsimp only
    rw [hu]
    simp [hf]
  · intro ha hu
    unfold handleProfileMsg
    rw [if_neg (by simp [ha])]
    dsimp only
    cases hres : (setNicknameForUser s.room u n).1 with
    | updated => exact absurd hres hu
    | unchanged => simp [hf]
    | invalid => simp [hf]

/-- Chat post: every validation failure leaves the state untouched; a
successful post bumps the revision by exactly one. -/
theorem handleChatMsg_revision (s : EngineState) (u m : String)
    (r : Option String) (now : ℚ) (fid : String) :
    ((∃ e, (handleChatMsg s u m r now fid).2 = [Outbound.errorMsg e]) ∧
      (handleChatMsg s u m r now fid).1 = s) ∨
    ((∀ e, ¬ (Outbound.errorMsg e ∈ (handleChatMsg s u m r now fid).2)) ∧
      ((handleChatMsg s u m r now fid).1).room.revision
          = s.room.revision + 1) := by
  have hgp := (getMemberProfile_fields s.room u).1
  unfold handleChatMsg
  by_cases hm : jsTrim m = ""
  · left
    refine ⟨⟨"message_empty", ?_⟩, ?_⟩ <;> simp [hm]
  · by_cases hr : r.map jsTrim = some ""
    · left
      refine ⟨⟨"invalid_reply_message_id", ?_⟩, ?_⟩ <;> simp [hm, hr]
    · cases hrep : r.map jsTrim with
      | none =>
        right
        constructor
        · intro e
          simp [hm, hr, hrep]
        · simp [hm, hr, hrep, hgp]
      | some rid =>
        have hrid : ¬ (rid = "") := by
          intro h
          apply hr
          rw [hrep, h]
        by_cases hex : s.chat.any (fun msg => msg.id = rid)
        · right
          constructor
          · intro e
            simp [hm, hr, hrep, hex, hrid]
          · simp [hm, hr, hrep, hex, hrid, hgp]
        · left
          refine ⟨⟨"reply_message_not_found", ?_⟩, ?_⟩ <;>
            simp [hm, hr, hrep, hex, hrid]

/-- C1: the revision starts at 1 on room creation; an accepted playback
change bumps it by exactly 1 while a rejected or no-op playback command
returns the room untouched (in particular: pause while already paused,
seek within 1 s of the current extrapolated position, and changeVideo to
the already-current video); an admitted join, a leave of a present
member, a nickname update, and a successful chat post each bump it by
exactly 1, while the corresponding failures leave it unchanged. -/
theorem c1_revision_discipline :
    (∀ (roomId creatorId tok : String) (nick : Option String)
        (video : VideoItem) (now : ℚ),
        (createRoom roomId creatorId tok nick video now).revision = 1) ∧
    (∀ (room : Room) (action : PlaybackAction) (atTimeSec : Option JsNum)
        (videoId : Option String) (now : ℚ)
        (store : String → Option VideoItem) (room' : Room)
        (r : Except String Bool),
        applyPlaybackAction room action atTimeSec videoId now store
            = (room', r) →
        (r = Except.ok true → room'.revision = room.revision + 1) ∧
        (¬ (r = Except.ok true) → room' = room)) ∧
    (∀ (room : Room) (now : ℚ) (store : String → Option VideoItem),
        room.playback.isPlaying = false →
        applyPlaybackAction room PlaybackAction.pause none none now store
            = (room, Except.ok false)) ∧
    (∀ (room : Room) (t : JsNum) (now : ℚ)
        (store : String → Option VideoItem),
        t.ltZero = false →
        (((normalizePlayback room.playback now).playbackTimeSec.sub
            t).abs.gtR SEEK_EPSILON_SEC) = false →
        applyPlaybackAction room PlaybackAction.seek (some t) none now store
            = (room, Except.ok false)) ∧
    (∀ (room : Room) (vid : String) (video : VideoItem) (now : ℚ)
        (store : String → Option VideoItem),
        ¬ (vid = "") → store vid = some video →
        room.playback.videoId = video.id →
        applyPlaybackAction room PlaybackAction.changeVideo none (some vid)
            now store = (room, Except.ok false)) ∧
    (∀ (s : EngineState) (connId : ℕ) (u : String) (nick : Option String)
        (now : ℚ),
        (∀ e, ¬ (Outbound.errorMsg e ∈ (handleJoin s connId u nick now).2)) →
        ((handleJoin s connId u nick now).1).room.revision
            = s.room.revision + 1) ∧
    (∀ (s : EngineState) (u : String), u ∈ s.room.members →
        ((removeMemberFromRoom s u).2).room.revision
            = s.room.revision + 1) ∧
    (∀ (s : EngineState) (u : String), ¬ (u ∈ s.room.members) →
        removeMemberFromRoom s u = (false, s)) ∧
    (∀ (s : EngineState) (u n : String),
        ((setNicknameForUser s.room u n).1 = SetNickResult.updated →
          ((handleProfileMsg s u "setNickname" n).1).room.revision
              = s.room.revision + 1) ∧
        (¬ ((setNicknameForUser s.room u n).1 = SetNickResult.updated) →
          ((handleProfileMsg s u "setNickname" n).1).room.revision
              = s.room.revision)) ∧
    (∀ (s : EngineState) (u m : String) (r : Option String) (now : ℚ)
        (fid : String),
        (∀ e, ¬ (Outbound.errorMsg e ∈ (handleChatMsg s u m r now fid).2)) →
        ((handleChatMsg s u m r now fid).1).room.revision
            = s.room.revision + 1) := by
  refine ⟨?_, ?_, ?_, ?_, ?_, ?_, ?_, ?_, ?_, ?_⟩
  · intro roomId creatorId tok nick video now
    rfl
  · exact fun room action a v now store room' r h =>
      applyPlaybackAction_cases room action a v now store room' r h
  · exact applyPlaybackAction_pause_noop
  · exact applyPlaybackAction_seek_noop
  · exact applyPlaybackAction_changeVideo_noop
  · intro s connId u nick now h
    rcases handleJoin_revision s connId u nick now with ⟨he, _⟩ | ⟨_, hr⟩
    · exact absurd
        (show Outbound.errorMsg "invalid_nickname"
            ∈ (handleJoin s connId u nick now).2 by
          rw [he]
          exact List.mem_singleton_self _)
        (h "invalid_nickname")
    · exact hr
  · intro s u h
    exact ((removeMemberFromRoom_spec s u).1 h).2
  · intro s u h
    exact (removeMemberFromRoom_spec s u).2 h
  · intro s u n
    exact ⟨(handleProfileMsg_revision s u "setNickname" n).2.1 rfl,
           (handleProfileMsg_revision s u "setNickname" n).2.2 rfl⟩
  · intro s u m r now fid h
    rcases handleChatMsg_revision s u m r now fid with ⟨⟨e, he⟩, _⟩ | ⟨_, hr⟩
    · exact absurd
        (show Outbound.errorMsg e ∈ (handleChatMsg s u m r now fid).2 by
          rw [he]
          exact List.mem_singleton_self _)
        (h e)
    · exact hr

def sampleChatMsg : ChatMessage :=
  { id := "m1"
    roomId := "room1"
    userId := "alice"
    userDisplayName := "alice"
    message := "hi"
    createdAtMs := 0
    replyToMessageId := none }

def sampleJoinedRoom : Room :=
  { sampleRoom with
      members := ["alice", "bob"]
      memberProfiles := [("alice", "alice"), ("bob", "bob")]
      revision := 2 }

/-- Witness for C1 at concrete inputs: creation revision 1; an applied
play bumps 1; the three no-ops return the sample room untouched; a join,
a leave, a nickname update and a chat post each bump by 1. -/
theorem c1_witness :
    (createRoom "room1" "alice" "tok" none sampleVideo 0).revision = 1 ∧
    ((applyPlaybackAction sampleRoom PlaybackAction.play none none 0
        sampleStore).1).revision = sampleRoom.revision + 1 ∧
    applyPlaybackAction sampleRoom PlaybackAction.pause none none 0
        sampleStore = (sampleRoom, Except.ok false) ∧
    applyPlaybackAction sampleRoom PlaybackAction.seek
        (some (JsNum.fin (1 / 2))) none 0 sampleStore
        = (sampleRoom, Except.ok false) ∧
    applyPlaybackAction sampleRoom PlaybackAction.changeVideo none
        (some "vid1") 0 sampleStore = (sampleRoom, Except.ok false) ∧
    ((handleJoin sampleState 1 "bob" none 0).1).room.revision
        = sampleState.room.revision + 1 ∧
    ((removeMemberFromRoom sampleState "alice").2).room.revision
        = sampleState.room.revision + 1 ∧
    removeMemberFromRoom sampleState "bob" = (false, sampleState) ∧
    ((handleProfileMsg sampleState "alice" "setNickname" "Alice").1).room.revision
        = sampleState.room.revision + 1 ∧
    ((handleChatMsg sampleState "alice" "hi" none 0 "m1").1).room.revision
        = sampleState.room.revision + 1 := by
  refine ⟨c1_revision_discipline.1 "room1" "alice" "tok" none sampleVideo 0,
    ?_, ?_, ?_, ?_, ?_, ?_, ?_, ?_, ?_⟩
  · exact (c1_revision_discipline.2.1 sampleRoom PlaybackAction.play none
      none 0 sampleStore
      (applyPlaybackAction sampleRoom PlaybackAction.play none none 0
        sampleStore).1
      (applyPlaybackAction sampleRoom PlaybackAction.play none none 0
        sampleStore).2 rfl).1 rfl
  · exact c1_revision_discipline.2.2.1 sampleRoom 0 sampleStore rfl
  · exact c1_revision_discipline.2.2.2.1 sampleRoom (JsNum.fin (1 / 2)) 0
      sampleStore (by norm_num [JsNum.ltZero])
      (by
        norm_num [normalizePlayback, sampleRoom, JsNum.sub, JsNum.abs,
          JsNum.gtR, SEEK_EPSILON_SEC]
        rw [abs_of_nonneg (by norm_num : (0 : ℚ) ≤ 1 / 2)]
        norm_num)
  · exact c1_revision_discipline.2.2.2.2.1 sampleRoom "vid1" sampleVideo 0
      sampleStore (by simp) rfl rfl
  · refine c1_revision_discipline.2.2.2.2.2.1 sampleState 1 "bob" none 0 ?_
    intro e h
    rw [show (handleJoin sampleState 1 "bob" none 0).2
        = [Outbound.welcome sampleJoinedRoom [],
           Outbound.broadcast "join" "bob" none] from rfl] at h
    simp at h
  · exact c1_revision_discipline.2.2.2.2.2.2.1 sampleState "alice"
      (List.mem_singleton_self "alice")
  · exact c1_revision_discipline.2.2.2.2.2.2.2.1 sampleState "bob" (by simp [sampleState, sampleRoom])
  · exact (c1_revision_discipline.2.2.2.2.2.2.2.2.1 sampleState "alice"
      "Alice").1 rfl
  · refine c1_revision_discipline.2.2.2.2.2.2.2.2.2 sampleState "alice" "hi"
      none 0 "m1" ?_
    intro e h
    rw [show (handleChatMsg sampleState "alice" "hi" none 0 "m1").2
        = [Outbound.chatMsg sampleChatMsg 2] from rfl] at h
    simp at h

/-- C3: lease acquisition grants exactly when the room has no holder, the
holder is already the user, or now is strictly past the stored expiry; on
grant holder and expiry are set; on denial the room is untouched and the
playback handler returns with no state change and no message — so the
second of two playback commands from different users within one lease
window is denied and dropped silently. -/
theorem c3_control_lease :
    (∀ (room : Room) (u : String) (now : ℚ),
        (acquireControlLease room u now).1 = true ↔
          (room.activeControllerId = none ∨ room.activeControllerId = some u
            ∨ now > room.activeControllerUntilMs)) ∧
    (∀ (room : Room) (u : String) (now : ℚ),
        (acquireControlLease room u now).1 = true →
        ((acquireControlLease room u now).2).activeControllerId = some u ∧
        ((acquireControlLease room u now).2).activeControllerUntilMs
            = now + CONTROL_LEASE_MS) ∧
    (∀ (room : Room) (u : String) (now : ℚ),
        ¬ ((acquireControlLease room u now).1 = true) →
        (acquireControlLease room u now).2 = room) ∧
    (∀ (s : EngineState) (u : String) (action : PlaybackAction)
        (atTimeSec : Option JsNum) (videoId : Option String) (now : ℚ)
        (store : String → Option VideoItem),
        (acquireControlLease s.room u now).1 = false →
        handlePlaybackMsg s u action atTimeSec videoId now store = (s, [])) ∧
    (∀ (room : Room) (u v : String) (t1 t2 : ℚ),
        ¬ (u = v) → (acquireControlLease room u t1).1 = true →
        t2 ≤ ((acquireControlLease room u t1).2).activeControllerUntilMs →
        (acquireControlLease ((acquireControlLease room u t1).2) v t2).1
            = false) ∧
    (∀ (s1 : EngineState) (u v : String) (t1 t2 : ℚ)
        (action : PlaybackAction) (atTimeSec : Option JsNum)
        (videoId : Option String) (store : String → Option VideoItem)
        (room0 : Room),
        ¬ (u = v) → (acquireControlLease room0 u t1).1 = true →
        t2 ≤ ((acquireControlLease room0 u t1).2).activeControllerUntilMs →
        s1.room = (acquireControlLease room0 u t1).2 →
        handlePlaybackMsg s1 v action atTimeSec videoId t2 store
            = (s1, [])) := by
  have hgrant : ∀ (room : Room) (u : String) (now : ℚ),
      (acquireControlLease room u now).1 = true ↔
        (room.activeControllerId = none ∨ room.activeControllerId = some u
          ∨ now > room.activeControllerUntilMs) := by
    intro room u now
    unfold acquireControlLease
    split
    case isTrue h => simpa using h
    case isFalse h => simpa using h
  have hfields : ∀ (room : Room) (u : String) (now : ℚ),
      (acquireControlLease room u now).1 = true →
      ((acquireControlLease room u now).2).activeControllerId = some u ∧
      ((acquireControlLease room u now).2).activeControllerUntilMs
          = now + CONTROL_LEASE_MS := by
    intro room u now h
    unfold acquireControlLease at *
    split at h
    · simp_all
    · simp at h
  have hdeny : ∀ (s : EngineState) (u : String) (action : PlaybackAction)
      (atTimeSec : Option JsNum) (videoId : Option String) (now : ℚ)
      (store : String → Option VideoItem),
      (acquireControlLease s.room u now).1 = false →
      handlePlaybackMsg s u action atTimeSec videoId now store = (s, []) := by
    intro s u action atTimeSec videoId now store h
    unfold handlePlaybackMsg
    simp [h]
  have hexcl : ∀ (room : Room) (u v : String) (t1 t2 : ℚ),
      ¬ (u = v) → (acquireControlLease room u t1).1 = true →
      t2 ≤ ((acquireControlLease room u t1).2).activeControllerUntilMs →
      (acquireControlLease ((acquireControlLease room u t1).2) v t2).1
          = false := by
    intro room u v t1 t2 huv h1 h2
    obtain ⟨hid, _⟩ := hfields room u t1 h1
    rcases hb : (acquireControlLease ((acquireControlLease room u t1).2) v
        t2).1 with _ | _
    · rfl
    · exfalso
      have := (hgrant ((acquireControlLease room u t1).2) v t2).mp hb
      rcases this with h | h | h
      · rw [hid] at h
        exact Option.noConfusion h
      · rw [hid] at h
        exact huv (by injection h)
      · exact absurd h2 (not_le.mpr h)
  refine ⟨hgrant, hfields, ?_, hdeny, hexcl, ?_⟩
  · intro room u now h
    unfold acquireControlLease at h ⊢
    split at h
    case isTrue hc => simp at h
    case isFalse hc => rw [if_neg hc]
  · intro s1 u v t1 t2 action atTimeSec videoId store room0 huv h1 h2 hs1
    apply hdeny
    rw [hs1]
    exact hexcl room0 u v t1 t2 huv h1 h2

/-- Witness for C3 at concrete inputs: with the sample room's lease held
by alice until 2000, alice re-acquires at 0; bob is denied at 1000 and
bob's seek command at 1000 is dropped with no state change and no
message. -/
theorem c3_witness :
    (acquireControlLease sampleRoom "alice" 0).1 = true ∧
    (acquireControlLease sampleRoom "bob" 1000).2 = sampleRoom ∧
    handlePlaybackMsg sampleState "bob" PlaybackAction.seek
        (some (JsNum.fin 50)) none 1000 sampleStore = (sampleState, []) ∧
    (acquireControlLease ((acquireControlLease sampleRoom "alice" 0).2)
        "bob" 1000).1 = false := by
  refine ⟨?_, ?_, ?_, ?_⟩
  · exact (c3_control_lease.1 sampleRoom "alice" 0).mpr
      (Or.inr (Or.inl rfl))
  · exact c3_control_lease.2.2.1 sampleRoom "bob" 1000 (by
      intro h
      rcases (c3_control_lease.1 sampleRoom "bob" 1000).mp h with
        hc | hc | hc
      · exact Option.noConfusion hc
      · simp [sampleRoom] at hc
      · norm_num [sampleRoom] at hc)
  · refine c3_control_lease.2.2.2.1 sampleState "bob" PlaybackAction.seek
      (some (JsNum.fin 50)) none 1000 sampleStore ?_
    rcases hb : (acquireControlLease sampleState.room "bob" 1000).1 with
      _ | _
    · rfl
    · exfalso
      rcases (c3_control_lease.1 sampleState.room "bob" 1000).mp hb with
        hc | hc | hc
      · exact Option.noConfusion hc
      · simp [sampleState, sampleRoom] at hc
      · norm_num [sampleState, sampleRoom] at hc
  · exact c3_control_lease.2.2.2.2.1 sampleRoom "alice" "bob" 0 1000
      (by simp)
      ((c3_control_lease.1 sampleRoom "alice" 0).mpr (Or.inr (Or.inl rfl)))
      (by
        rw [((c3_control_lease.2.1 sampleRoom "alice" 0)
          ((c3_control_lease.1 sampleRoom "alice" 0).mpr
            (Or.inr (Or.inl rfl)))).2]
        norm_num [CONTROL_LEASE_MS])

theorem JsNum.sub_nan (x : JsNum) : x.sub JsNum.nan = JsNum.nan := by
  cases x <;> rfl

/-- C6 counterexample: the code validates a seek target only with
`typeof !== "number"` and `< 0`; `NaN` (not a finite number) is accepted
and treated as a no-op, and `+Infinity` is accepted and stored as the
position — the claim requires `invalid_seek_time` for both. -/
theorem c6_seek_validation_counterexample :
    applyPlaybackAction sampleRoom PlaybackAction.seek (some JsNum.nan) none
        0 sampleStore = (sampleRoom, Except.ok false) ∧
    (applyPlaybackAction sampleRoom PlaybackAction.seek (some JsNum.posInf)
        none 0 sampleStore).2 = Except.ok true ∧
    ((applyPlaybackAction sampleRoom PlaybackAction.seek (some JsNum.posInf)
        none 0 sampleStore).1).playback.playbackTimeSec = JsNum.posInf :=
  ⟨rfl, rfl, rfl⟩

/-- C6 (amended): seek fails with `invalid_seek_time` exactly when the
argument is absent (or not a number) or compares `< 0` in JS (a negative
finite value or `-Infinity`); `NaN` is accepted as a no-op; `+Infinity`
is accepted and stored; a finite value `a ≥ 0` within 1 s of the current
extrapolated position `p` is a no-op, and otherwise the position becomes
`a`, the stamp `now`, and the revision is bumped by one. -/
theorem c6_seek_validation_amended (room : Room) (atTimeSec : Option JsNum)
    (now : ℚ) (store : String → Option VideoItem) :
    ((applyPlaybackAction room PlaybackAction.seek atTimeSec none now
        store).2 = Except.error "invalid_seek_time" ↔
      (atTimeSec = none ∨ ∃ t, atTimeSec = some t ∧ t.ltZero = true)) ∧
    (atTimeSec = some JsNum.nan →
      applyPlaybackAction room PlaybackAction.seek atTimeSec none now store
          = (room, Except.ok false)) ∧
    (∀ p : ℚ, atTimeSec = some JsNum.posInf →
      (normalizePlayback room.playback now).playbackTimeSec = JsNum.fin p →
      (applyPlaybackAction room PlaybackAction.seek atTimeSec none now
          store).2 = Except.ok true ∧
      ((applyPlaybackAction room PlaybackAction.seek atTimeSec none now
          store).1).playback.playbackTimeSec = JsNum.posInf) ∧
    (∀ p a : ℚ, atTimeSec = some (JsNum.fin a) → 0 ≤ a →
      (normalizePlayback room.playback now).playbackTimeSec = JsNum.fin p →
      (|p - a| ≤ 1 →
        applyPlaybackAction room PlaybackAction.seek atTimeSec none now
            store = (room, Except.ok false)) ∧
      (1 < |p - a| →
        (applyPlaybackAction room PlaybackAction.seek atTimeSec none now
            store).2 = Except.ok true ∧
        ((applyPlaybackAction room PlaybackAction.seek atTimeSec none now
            store).1).playback.playbackTimeSec = JsNum.fin a ∧
        ((applyPlaybackAction room PlaybackAction.seek atTimeSec none now
            store).1).playback.lastUpdatedAtMs = now ∧
        ((applyPlaybackAction room PlaybackAction.seek atTimeSec none now
            store).1).revision = room.revision + 1)) := by
  refine ⟨?_, ?_, ?_, ?_⟩
  · cases atTimeSec with
    | none => simp [applyPlaybackAction]
    | some t =>
      by_cases hlt : t.ltZero
      · simp [applyPlaybackAction, hlt]
      · by_cases hgt : (((normalizePlayback room.playback
            now).playbackTimeSec.sub t).abs.gtR SEEK_EPSILON_SEC)
        · simp [applyPlaybackAction, hlt, hgt]
        · simp [applyPlaybackAction, hlt, hgt]
  · intro h
    subst h
    simp [applyPlaybackAction, JsNum.ltZero, JsNum.sub_nan, JsNum.abs,
      JsNum.gtR]
  · intro p h hp
    subst h
    simp [applyPlaybackAction, hp, JsNum.ltZero, JsNum.sub, JsNum.abs,
      JsNum.gtR]
  · intro p a h ha hp
    subst h
    have hlt : (JsNum.fin a).ltZero = false := by
      simp [JsNum.ltZero, not_lt.mpr ha]
    constructor
    · intro hnear
      have hgt : (((normalizePlayback room.playback
          now).playbackTimeSec.sub (JsNum.fin a)).abs.gtR
          SEEK_EPSILON_SEC) = false := by
        simp [hp, JsNum.sub, JsNum.abs, JsNum.gtR, SEEK_EPSILON_SEC,
          not_lt.mpr hnear]
      simp [applyPlaybackAction, hlt, hgt]
    · intro hfar
      have hgt : (((normalizePlayback room.playback
          now).playbackTimeSec.sub (JsNum.fin a)).abs.gtR
          SEEK_EPSILON_SEC) = true := by
        simp [hp, JsNum.sub, JsNum.abs, JsNum.gtR, SEEK_EPSILON_SEC, hfar]
      simp [applyPlaybackAction, hlt, hgt]

/-- Witness for C6 (amended) at concrete inputs: an absent argument
errors; `NaN` no-ops; `+Infinity` is stored; 0.5 is within the epsilon of
position 0 and no-ops; 100 is applied. -/
theorem c6_witness :
    (applyPlaybackAction sampleRoom PlaybackAction.seek none none 0
        sampleStore).2 = Except.error "invalid_seek_time" ∧
    applyPlaybackAction sampleRoom PlaybackAction.seek (some JsNum.nan)
        none 0 sampleStore = (sampleRoom, Except.ok false) ∧
    (applyPlaybackAction sampleRoom PlaybackAction.seek (some JsNum.posInf)
        none 0 sampleStore).2 = Except.ok true ∧
    applyPlaybackAction sampleRoom PlaybackAction.seek
        (some (JsNum.fin (1 / 2))) none 0 sampleStore
        = (sampleRoom, Except.ok false) ∧
    ((applyPlaybackAction sampleRoom PlaybackAction.seek
        (some (JsNum.fin 100)) none 0 sampleStore).1).playback.playbackTimeSec
        = JsNum.fin 100 := by
  refine ⟨?_, ?_, ?_, ?_, ?_⟩
  · exact (c6_seek_validation_amended sampleRoom none 0 sampleStore).1.mpr
      (Or.inl rfl)
  · exact (c6_seek_validation_amended sampleRoom (some JsNum.nan) 0
      sampleStore).2.1 rfl
  · exact ((c6_seek_validation_amended sampleRoom (some JsNum.posInf) 0
      sampleStore).2.2.1 0 rfl rfl).1
  · exact ((c6_seek_validation_amended sampleRoom (some (JsNum.fin (1 / 2)))
      0 sampleStore).2.2.2 0 (1 / 2) rfl (by norm_num) rfl).1 (by
        rw [abs_of_nonpos (by norm_num : (0 : ℚ) - 1 / 2 ≤ 0)]
        norm_num)
  · exact (((c6_seek_validation_amended sampleRoom (some (JsNum.fin 100))
      0 sampleStore).2.2.2 0 100 rfl (by norm_num) rfl).2 (by
        rw [abs_of_nonpos (by norm_num : (0 : ℚ) - 100 ≤ 0)]
        norm_num)).2.1

def longNick33 : String := String.mk (List.replicate 33 'a')

/-- C7 counterexample: a nickname whose trimmed form has 33 characters is
accepted — `normalizeNickname` truncates with `slice(0, 32)` instead of
rejecting — though the claim requires `invalid_nickname` beyond 32. -/
theorem c7_nickname_counterexample :
    (jsTrim longNick33).length = 33 ∧
    (setNicknameForUser sampleRoom "alice" longNick33).1
        = SetNickResult.updated ∧
    mapGet ((setNicknameForUser sampleRoom "alice"
        longNick33).2).memberProfiles "alice"
        = some (String.mk (List.replicate 32 'a')) :=
  ⟨rfl, rfl, rfl⟩

/-- C7 (amended): a nickname is rejected with `invalid_nickname` exactly
when its trimmed form is empty; an accepted nickname is stored as the
first 32 characters of its trimmed form (longer nicknames are truncated,
not rejected), so the stored form never exceeds 32 characters; the
admission-time nickname check behaves the same way for a non-empty
supplied nickname. -/
theorem c7_nickname_amended :
    (∀ (room : Room) (u n : String),
        ((setNicknameForUser room u n).1 = SetNickResult.invalid ↔
          jsTrim n = "")) ∧
    (∀ (room : Room) (u n : String),
        (setNicknameForUser room u n).1 = SetNickResult.updated →
        mapGet ((setNicknameForUser room u n).2).memberProfiles u
            = some (jsSlice32 (jsTrim n))) ∧
    (∀ s : String, (jsSlice32 s).length ≤ 32) ∧
    (∀ (s : EngineState) (connId : ℕ) (u n : String) (now : ℚ),
        ¬ (n = "") →
        ((handleJoin s connId u (some n) now).2
            = [Outbound.errorMsg "invalid_nickname"] ↔ jsTrim n = "")) := by
  have hinv : ∀ (room : Room) (u n : String),
      ((setNicknameForUser room u n).1 = SetNickResult.invalid ↔
        jsTrim n = "") := by
    intro room u n
    unfold setNicknameForUser normalizeNickname
    by_cases ht : jsTrim n = ""
    · simp [ht]
    · simp only [ht, if_false]
      split <;> simp [ht]
  refine ⟨hinv, ?_, ?_, ?_⟩
  · intro room u n h
    unfold setNicknameForUser normalizeNickname at *
    by_cases ht : jsTrim n = ""
    · simp [ht] at h
    · simp only [ht, if_false] at h ⊢
      split at h
      · simp at h
      · split
        · simp_all
        · exact mapGet_mapSet_self _ u _
  · intro s
    have : (jsSlice32 s).length = (s.data.take 32).length := rfl
    rw [this, List.length_take]
    exact min_le_left _ _
  · intro s connId u n now hn
    unfold handleJoin
    by_cases ht : jsTrim n = ""
    · have hi : (setNicknameForUser
          { s.room with members := setAdd s.room.members u } u n).1
          = SetNickResult.invalid := (hinv _ u n).mpr ht
      simp [hn, hi, ht]
    · have hi : ¬ ((setNicknameForUser
          { s.room with members := setAdd s.room.members u } u n).1
          = SetNickResult.invalid) := by
        rw [hinv _ u n]
        exact ht
      simp [hn, hi, ht]

/-- Witness for C7 (amended) at concrete inputs: a blank nickname is
invalid; the 33-character nickname is stored truncated to 32 characters;
joining with a blank nickname is rejected while an ordinary one is not. -/
theorem c7_witness :
    (setNicknameForUser sampleRoom "alice" "   ").1
        = SetNickResult.invalid ∧
    mapGet ((setNicknameForUser sampleRoom "alice"
        longNick33).2).memberProfiles "alice"
        = some (jsSlice32 (jsTrim longNick33)) ∧
    (jsSlice32 longNick33).length ≤ 32 ∧
    ((handleJoin sampleState 1 "bob" (some "   ") 0).2
        = [Outbound.errorMsg "invalid_nickname"]) ∧
    ¬ ((handleJoin sampleState 1 "bob" (some "Bob") 0).2
        = [Outbound.errorMsg "invalid_nickname"]) := by
  refine ⟨?_, ?_, ?_, ?_, ?_⟩
  · exact (c7_nickname_amended.1 sampleRoom "alice" "   ").mpr rfl
  · exact c7_nickname_amended.2.1 sampleRoom "alice" longNick33 rfl
  · exact c7_nickname_amended.2.2.1 longNick33
  · exact (c7_nickname_amended.2.2.2 sampleState 1 "bob" "   " 0
      (by decide)).mpr rfl
  · intro h
    have := (c7_nickname_amended.2.2.2 sampleState 1 "bob" "Bob" 0
      (by decide)).mp h
    exact absurd this (by decide)

theorem normalizePlayback_paused (p : PlaybackState) (now : ℚ)
    (h : p.isPlaying = false) : normalizePlayback p now = p := by
  unfold normalizePlayback
  rw [if_pos h]

theorem normalizePlayback_isPlaying (p : PlaybackState) (now : ℚ) :
    (normalizePlayback p now).isPlaying = p.isPlaying := by
  unfold normalizePlayback
  split <;> rfl

theorem normalizePlayback_videoId (p : PlaybackState) (now : ℚ) :
    (normalizePlayback p now).videoId = p.videoId := by
  unfold normalizePlayback
  split <;> rfl

theorem acquireControlLease_fields (room : Room) (u : String) (now : ℚ) :
    ((acquireControlLease room u now).2).playback = room.playback ∧
    ((acquireControlLease room u now).2).revision = room.revision ∧
    ((acquireControlLease room u now).2).members = room.members ∧
    ((acquireControlLease room u now).2).memberProfiles
        = room.memberProfiles ∧
    ((acquireControlLease room u now).2).id = room.id := by
  exact ⟨by unfold acquireControlLease; split <;> rfl,
         by unfold acquireControlLease; split <;> rfl,
         by unfold acquireControlLease; split <;> rfl,
         by unfold acquireControlLease; split <;> rfl,
         by unfold acquireControlLease; split <;> rfl⟩

theorem acquireControlLease_granted_id (room : Room) (u : String) (now : ℚ)
    (h : (acquireControlLease room u now).1 = true) :
    ((acquireControlLease room u now).2).activeControllerId = some u := by
  unfold acquireControlLease at h ⊢
  split
  case isTrue hc => rfl
  case isFalse hc =>
    rw [if_neg hc] at h
    simp at h

theorem acquireControlLease_grants_holder (room : Room) (u : String)
    (now : ℚ) (h : room.activeControllerId = some u) :
    (acquireControlLease room u now).1 = true := by
  unfold acquireControlLease
  rw [if_pos (Or.inr (Or.inl h))]

theorem enqueuePlaybackBurstEvent_room (s : EngineState) (u : String)
    (a : DedupablePlaybackAction) :
    (enqueuePlaybackBurstEvent s u a).room = s.room := by
  unfold enqueuePlaybackBurstEvent
  split <;> rfl

theorem enqueuePlaybackBurstEvent_recentPause (s : EngineState) (u : String)
    (a : DedupablePlaybackAction) :
    (enqueuePlaybackBurstEvent s u a).recentPause = s.recentPause := by
  unfold enqueuePlaybackBurstEvent
  split <;> rfl

/-- An applied pause on a playing room: the full state transition of the
ws playback branch. -/
theorem handlePlaybackMsg_pause_step (s : EngineState) (u : String)
    (now : ℚ) (store : String → Option VideoItem)
    (hplay : s.room.playback.isPlaying = true)
    (hgrant : (acquireControlLease s.room u now).1 = true) :
    handlePlaybackMsg s u PlaybackAction.pause none none now store
      = (enqueuePlaybackBurstEvent
          { s with
              room := { (acquireControlLease s.room u now).2 with
                  playback := { normalizePlayback s.room.playback now with
                      isPlaying := false
                      lastUpdatedAtMs := now }
                  revision := s.room.revision + 1 }
              recentPause := mapSet s.recentPause u now }
          u DedupablePlaybackAction.pause,
        [Outbound.stateToCaller "playback" u (some PlaybackAction.pause)]) := by
  have hlf := acquireControlLease_fields s.room u now
  have hnp : (normalizePlayback s.room.playback now).isPlaying = true := by
    rw [normalizePlayback_isPlaying]
    exact hplay
  have happly : applyPlaybackAction ((acquireControlLease s.room u now).2)
      PlaybackAction.pause none none now store
      = ({ (acquireControlLease s.room u now).2 with
             playback := { normalizePlayback s.room.playback now with
                 isPlaying := false
                 lastUpdatedAtMs := now }
             revision := s.room.revision + 1 }, Except.ok true) := by
    unfold applyPlaybackAction
    simp only [hlf.1, hlf.2.1, hnp, if_true]
  simp only [handlePlaybackMsg, hgrant, Bool.true_eq_false, if_false,
    happly, hplay]
  simp [PlaybackAction.toDedupable]

/-- An applied seek on a paused room whose user paused within the noise
window: the seek is applied and the resume-after-scrub branch restores
`isPlaying` with a second revision bump. -/
theorem handlePlaybackMsg_seek_resume (s : EngineState) (u : String)
    (t1 x p1 t0 : ℚ) (store : String → Option VideoItem)
    (hpaused : s.room.playback.isPlaying = false)
    (hpos : s.room.playback.playbackTimeSec = JsNum.fin p1)
    (hx : 0 ≤ x) (hfar : 1 < |p1 - x|)
    (hgrant : (acquireControlLease s.room u t1).1 = true)
    (hrp : mapGet s.recentPause u = some t0)
    (hwin : t1 - t0 ≤ SEEK_PAUSE_NOISE_WINDOW_MS) :
    ((handlePlaybackMsg s u PlaybackAction.seek (some (JsNum.fin x)) none t1
        store).1).room.playback.isPlaying = true ∧
    ((handlePlaybackMsg s u PlaybackAction.seek (some (JsNum.fin x)) none t1
        store).1).room.playback.playbackTimeSec = JsNum.fin x ∧
    ((handlePlaybackMsg s u PlaybackAction.seek (some (JsNum.fin x)) none t1
        store).1).room.playback.lastUpdatedAtMs = t1 ∧
    ((handlePlaybackMsg s u PlaybackAction.seek (some (JsNum.fin x)) none t1
        store).1).room.revision = s.room.revision + 2 := by
  have hlf := acquireControlLease_fields s.room u t1
  have hnorm : normalizePlayback s.room.playback t1 = s.room.playback :=
    normalizePlayback_paused _ _ hpaused
  have hlt : (JsNum.fin x).ltZero = false := by
    simp [JsNum.ltZero, not_lt.mpr hx]
  have hgt : (((normalizePlayback s.room.playback
      t1).playbackTimeSec.sub (JsNum.fin x)).abs.gtR
      SEEK_EPSILON_SEC) = true := by
    simp [hnorm, hpos, JsNum.sub, JsNum.abs, JsNum.gtR, SEEK_EPSILON_SEC,
      hfar]
  have happly : applyPlaybackAction ((acquireControlLease s.room u t1).2)
      PlaybackAction.seek (some (JsNum.fin x)) none t1 store
      = ({ (acquireControlLease s.room u t1).2 with
             playback := { s.room.playback with
                 playbackTimeSec := JsNum.fin x
                 lastUpdatedAtMs := t1 }
             revision := s.room.revision + 1 }, Except.ok true) := by
    have hgt2 : ((s.room.playback.playbackTimeSec.sub
        (JsNum.fin x)).abs.gtR SEEK_EPSILON_SEC) = true := by
      rw [hnorm] at hgt
      exact hgt
    unfold applyPlaybackAction
    simp only [hlf.1, hlf.2.1, hlt, Bool.false_eq_true, if_false, hgt2,
      if_true, hnorm]
  simp only [handlePlaybackMsg, hgrant, Bool.true_eq_false, if_false,
    happly]
  simp [hpaused, hrp, hwin, enqueuePlaybackBurstEvent_room]

/-- C5: with playback playing, a `pause` at `t0` followed by a far-enough
valid `seek` by the same user at `t1` within the 500 ms window ends with
`isPlaying = true`, position at the seek target, stamp `t1`, and the
revision bumped three times in total (pause, seek, and the extra
resume-after-scrub bump). -/
theorem c5_resume_after_scrub (s : EngineState) (u : String)
    (t0 t1 x p : ℚ) (store : String → Option VideoItem)
    (hplay : s.room.playback.isPlaying = true)
    (hpos : s.room.playback.playbackTimeSec = JsNum.fin p) (hp : 0 ≤ p)
    (hle : s.room.playback.lastUpdatedAtMs ≤ t0)
    (hgrant : (acquireControlLease s.room u t0).1 = true)
    (hx : 0 ≤ x)
    (hfar : 1 < |(p + (t0 - s.room.playback.lastUpdatedAtMs) / 1000) - x|)
    (hwin : t1 - t0 ≤ SEEK_PAUSE_NOISE_WINDOW_MS) :
    ((handlePlaybackMsg ((handlePlaybackMsg s u PlaybackAction.pause none
        none t0 store).1) u PlaybackAction.seek (some (JsNum.fin x)) none t1
        store).1).room.playback.isPlaying = true ∧
    ((handlePlaybackMsg ((handlePlaybackMsg s u PlaybackAction.pause none
        none t0 store).1) u PlaybackAction.seek (some (JsNum.fin x)) none t1
        store).1).room.playback.playbackTimeSec = JsNum.fin x ∧
    ((handlePlaybackMsg ((handlePlaybackMsg s u PlaybackAction.pause none
        none t0 store).1) u PlaybackAction.seek (some (JsNum.fin x)) none t1
        store).1).room.revision = s.room.revision + 3 := by
  have hstep := handlePlaybackMsg_pause_step s u t0 store hplay hgrant
  set s1 := (handlePlaybackMsg s u PlaybackAction.pause none none t0
    store).1 with hs1
  have hs1eq : s1 = enqueuePlaybackBurstEvent
      { s with
          room := { (acquireControlLease s.room u t0).2 with
              playback := { normalizePlayback s.room.playback t0 with
                  isPlaying := false
                  lastUpdatedAtMs := t0 }
              revision := s.room.revision + 1 }
          recentPause := mapSet s.recentPause u t0 }
      u DedupablePlaybackAction.pause := by
    rw [hs1, hstep]
  have hnormpos : (normalizePlayback s.room.playback t0).playbackTimeSec
      = JsNum.fin (p + (t0 - s.room.playback.lastUpdatedAtMs) / 1000) := by
    unfold normalizePlayback
    rw [if_neg (by simp [hplay])]
    have e0 : (0 : ℚ) ≤ (t0 - s.room.playback.lastUpdatedAtMs) / 1000 :=
      div_nonneg (sub_nonneg.mpr hle) (by norm_num)
    simp [hpos, JsNum.addFin, JsNum.max0, max_eq_right e0,
      max_eq_right (add_nonneg hp e0)]
  have h1paused : s1.room.playback.isPlaying = false := by
    rw [hs1eq, enqueuePlaybackBurstEvent_room]
  have h1pos : s1.room.playback.playbackTimeSec
      = JsNum.fin (p + (t0 - s.room.playback.lastUpdatedAtMs) / 1000) := by
    rw [hs1eq, enqueuePlaybackBurstEvent_room]
    exact hnormpos
  have h1rev : s1.room.revision = s.room.revision + 1 := by
    rw [hs1eq, enqueuePlaybackBurstEvent_room]
  have h1id : s1.room.activeControllerId = some u := by
    rw [hs1eq, enqueuePlaybackBurstEvent_room]
    exact acquireControlLease_granted_id s.room u t0 hgrant
  have h1rp : mapGet s1.recentPause u = some t0 := by
    rw [hs1eq, enqueuePlaybackBurstEvent_recentPause]
    exact mapGet_mapSet_self s.recentPause u t0
  have h1grant : (acquireControlLease s1.room u t1).1 = true :=
    acquireControlLease_grants_holder s1.room u t1 h1id
  have hmain := handlePlaybackMsg_seek_resume s1 u t1 x
    (p + (t0 - s.room.playback.lastUpdatedAtMs) / 1000) t0 store h1paused
    h1pos hx hfar h1grant h1rp hwin
  refine ⟨hmain.1, hmain.2.1, ?_⟩
  rw [hmain.2.2.2, h1rev]

def sampleResumeState : EngineState :=
  { room :=
      { sampleRoom with
          playback := { sampleRoom.playback with isPlaying := true } }
    chat := []
    recentPause := []
    pendingBursts := []
    sockets := [(0, "alice")] }

/-- Witness for C5 at concrete inputs: alice pauses at 0 and seeks to
12 s at 300 ms; the final state is playing at 12 s with three revision
bumps. -/
theorem c5_witness :
    ((handlePlaybackMsg ((handlePlaybackMsg sampleResumeState "alice"
        PlaybackAction.pause none none 0 sampleStore).1) "alice"
        PlaybackAction.seek (some (JsNum.fin 12)) none 300
        sampleStore).1).room.playback.isPlaying = true ∧
    ((handlePlaybackMsg ((handlePlaybackMsg sampleResumeState "alice"
        PlaybackAction.pause none none 0 sampleStore).1) "alice"
        PlaybackAction.seek (some (JsNum.fin 12)) none 300
        sampleStore).1).room.playback.playbackTimeSec = JsNum.fin 12 ∧
    ((handlePlaybackMsg ((handlePlaybackMsg sampleResumeState "alice"
        PlaybackAction.pause none none 0 sampleStore).1) "alice"
        PlaybackAction.seek (some (JsNum.fin 12)) none 300
        sampleStore).1).room.revision = sampleResumeState.room.revision
            + 3 := by
  have h := c5_resume_after_scrub sampleResumeState "alice" 0 300 12 0
    sampleStore rfl rfl (by norm_num) (by norm_num [sampleResumeState,
      sampleRoom])
    (acquireControlLease_grants_holder _ "alice" 0 rfl) (by norm_num)
    (by norm_num [sampleResumeState, sampleRoom])
    (by norm_num [SEEK_PAUSE_NOISE_WINDOW_MS])
  exact h

/-- A playback command that reports an error leaves everything but the
already-acquired control lease untouched. -/
theorem handlePlaybackMsg_error_atomic (s : EngineState) (u : String)
    (action : PlaybackAction) (atTimeSec : Option JsNum)
    (videoId : Option String) (now : ℚ) (store : String → Option VideoItem)
    (e : String)
    (h : Outbound.errorMsg e
        ∈ (handlePlaybackMsg s u action atTimeSec videoId now store).2) :
    ((handlePlaybackMsg s u action atTimeSec videoId now
        store).1).room.members = s.room.members ∧
    ((handlePlaybackMsg s u action atTimeSec videoId now
        store).1).room.memberProfiles = s.room.memberProfiles ∧
    ((handlePlaybackMsg s u action atTimeSec videoId now
        store).1).room.playback = s.room.playback ∧
    ((handlePlaybackMsg s u action atTimeSec videoId now
        store).1).room.revision = s.room.revision ∧
    ((handlePlaybackMsg s u action atTimeSec videoId now store).1).chat
        = s.chat ∧
    ((handlePlaybackMsg s u action atTimeSec videoId now
        store).1).recentPause = s.recentPause ∧
    ((handlePlaybackMsg s u action atTimeSec videoId now
        store).1).pendingBursts = s.pendingBursts ∧
    ((handlePlaybackMsg s u action atTimeSec videoId now store).1).sockets
        = s.sockets := by
  by_cases hg : (acquireControlLease s.room u now).1 = false
  · unfold handlePlaybackMsg at h
    simp [hg] at h
  · have hg' : (acquireControlLease s.room u now).1 = true := by
      revert hg
      cases (acquireControlLease s.room u now).1 <;> simp
    have hlf := acquireControlLease_fields s.room u now
    rcases happ : applyPlaybackAction ((acquireControlLease s.room u
        now).2) action atTimeSec videoId now store with ⟨room1, r⟩
    unfold handlePlaybackMsg at h ⊢
    simp only [hg', Bool.true_eq_false, if_false, happ] at h ⊢
    cases r with
    | error e2 =>
      have hroom1 : room1 = (acquireControlLease s.room u now).2 :=
        (applyPlaybackAction_cases _ action atTimeSec videoId now store
          room1 _ happ).2 (by intro hc; exact Except.noConfusion hc)
      simp [hroom1, hlf.1, hlf.2.1, hlf.2.2.1, hlf.2.2.2.1]
    | ok changed =>
      cases changed with
      | false => simp at h
      | true =>
        exfalso
        by_cases hcv : action = PlaybackAction.changeVideo <;>
          simp [hcv] at h

/-- A profile message that reports an error leaves the state untouched. -/
theorem handleProfileMsg_error_atomic (s : EngineState) (u a n : String)
    (e : String)
    (h : Outbound.errorMsg e ∈ (handleProfileMsg s u a n).2) :
    (handleProfileMsg s u a n).1 = s := by
  unfold handleProfileMsg at *
  by_cases ha : a = "setNickname"
  · rw [if_neg (not_not_intro ha)] at h ⊢
    dsimp only at h ⊢
    rcases hres : (setNicknameForUser s.room u n).1 with _ | _ | _
    · simp [hres] at h
    · simp [hres] at h
    · have hr := setNicknameForUser_invalid s.room u n hres
      simp [hres, hr]
  · rw [if_pos ha] at h ⊢

/-- C8 counterexample: a seek command with a missing time argument fails
with `invalid_seek_time`, yet the control lease was already acquired by
the failing command — the room state is not identical afterwards. -/
theorem c8_failure_atomicity_counterexample :
    (handleMessage sampleState "bob" (WsClientMessage.playback
        PlaybackAction.seek none none) 3000 sampleStore "m1").2
        = [Outbound.errorMsg "invalid_seek_time"] ∧
    ((handleMessage sampleState "bob" (WsClientMessage.playback
        PlaybackAction.seek none none) 3000 sampleStore
        "m1").1).room.activeControllerId = some "bob" ∧
    sampleState.room.activeControllerId = some "alice" :=
  ⟨rfl, rfl, rfl⟩

/-- C8 (amended): an in-room command that fails with a validation error
leaves members, profiles, playback, revision, chat log, recent-pause and
pending-burst bookkeeping, and the socket set unchanged — but not
necessarily the control lease, which a failing playback command acquires
or refreshes before validation; and the admission-time `invalid_nickname`
rejection happens after the member was added, leaving the added member in
place with everything else unchanged. -/
theorem c8_failure_atomicity_amended :
    (∀ (s : EngineState) (u : String) (msg : WsClientMessage) (now : ℚ)
        (store : String → Option VideoItem) (fid : String) (e : String),
        Outbound.errorMsg e
            ∈ (handleMessage s u msg now store fid).2 →
        ((handleMessage s u msg now store fid).1).room.members
            = s.room.members ∧
        ((handleMessage s u msg now store fid).1).room.memberProfiles
            = s.room.memberProfiles ∧
        ((handleMessage s u msg now store fid).1).room.playback
            = s.room.playback ∧
        ((handleMessage s u msg now store fid).1).room.revision
            = s.room.revision ∧
        ((handleMessage s u msg now store fid).1).chat = s.chat ∧
        ((handleMessage s u msg now store fid).1).recentPause
            = s.recentPause ∧
        ((handleMessage s u msg now store fid).1).pendingBursts
            = s.pendingBursts ∧
        ((handleMessage s u msg now store fid).1).sockets = s.sockets) ∧
    (∀ (s : EngineState) (connId : ℕ) (u : String) (nick : Option String)
        (now : ℚ) (e : String),
        Outbound.errorMsg e ∈ (handleJoin s connId u nick now).2 →
        ((handleJoin s connId u nick now).1).room.members
            = setAdd s.room.members u ∧
        ((handleJoin s connId u nick now).1).room.memberProfiles
            = s.room.memberProfiles ∧
        ((handleJoin s connId u nick now).1).room.playback
            = s.room.playback ∧
        ((handleJoin s connId u nick now).1).room.revision
            = s.room.revision ∧
        ((handleJoin s connId u nick now).1).chat = s.chat ∧
        ((handleJoin s connId u nick now).1).sockets = s.sockets) := by
  constructor
  · intro s u msg now store fid e h
    cases msg with
    | ping => simp [handleMessage] at h
    | sync => simp [handleMessage] at h
    | profile a n =>
      have hs := handleProfileMsg_error_atomic s u a n e
        (by simpa [handleMessage] using h)
      simp [handleMessage, hs]
    | playback action atTimeSec videoId =>
      exact handlePlaybackMsg_error_atomic s u action atTimeSec videoId
        now store e (by simpa [handleMessage] using h)
    | chat m r =>
      rcases handleChatMsg_revision s u m r now fid with ⟨_, hs⟩ | ⟨hno, _⟩
      · simp [handleMessage, hs]
      · exact absurd (by simpa [handleMessage] using h) (hno e)
  · intro s connId u nick now e h
    unfold handleJoin at h ⊢
    cases nick with
    | none => simp at h
    | some n =>
      by_cases hn : n = ""
      · simp [hn] at h
      · by_cases hi : (setNicknameForUser
            { s.room with members := setAdd s.room.members u } u n).1
            = SetNickResult.invalid
        · have hr := setNicknameForUser_invalid
            { s.room with members := setAdd s.room.members u } u n hi
          simp [hn, hi, hr]
        · simp [hn, hi] at h

/-- Witness for C8 (amended) at concrete inputs: a chat post with a blank
message fails with `message_empty` and changes nothing; joining with a
blank nickname fails with `invalid_nickname` yet adds the member while
changing nothing else. -/
theorem c8_witness :
    ((handleMessage sampleState "alice" (WsClientMessage.chat "   " none)
        0 sampleStore "m1").1).room.revision = sampleState.room.revision ∧
    ((handleMessage sampleState "alice" (WsClientMessage.chat "   " none)
        0 sampleStore "m1").1).chat = sampleState.chat ∧
    ((handleJoin sampleState 1 "bob" (some "   ") 0).1).room.members
        = setAdd sampleState.room.members "bob" ∧
    ((handleJoin sampleState 1 "bob" (some "   ") 0).1).room.revision
        = sampleState.room.revision := by
  have h1 := c8_failure_atomicity_amended.1 sampleState "alice"
    (WsClientMessage.chat "   " none) 0 sampleStore "m1" "message_empty"
    (by
      rw [show (handleMessage sampleState "alice"
          (WsClientMessage.chat "   " none) 0 sampleStore "m1").2
          = [Outbound.errorMsg "message_empty"] from rfl]
      exact List.mem_singleton_self _)
  have h2 := c8_failure_atomicity_amended.2 sampleState 1 "bob"
    (some "   ") 0 "invalid_nickname"
    (by
      rw [show (handleJoin sampleState 1 "bob" (some "   ") 0).2
          = [Outbound.errorMsg "invalid_nickname"] from rfl]
      exact List.mem_singleton_self _)
  exact ⟨h1.2.2.2.1, h1.2.2.2.2.1, h2.1, h2.2.2.2.1⟩

theorem getMemberProfile_mapDel (room : Room) (u : String) :
    mapDel ((getMemberProfile room u).2).memberProfiles u
        = mapDel room.memberProfiles u := by
  unfold getMemberProfile
  split
  · rfl
  · simp [mapDel_mapSet_self]

/-- Full characterisation of `removeMemberFromRoom` on a present member. -/
theorem removeMemberFromRoom_fields (s : EngineState) (u : String)
    (h : u ∈ s.room.members) :
    (removeMemberFromRoom s u).1 = true ∧
    ((removeMemberFromRoom s u).2).room.members = s.room.members.erase u ∧
    ((removeMemberFromRoom s u).2).room.memberProfiles
        = mapDel s.room.memberProfiles u ∧
    ((removeMemberFromRoom s u).2).room.revision = s.room.revision + 1 ∧
    ((removeMemberFromRoom s u).2).recentPause = mapDel s.recentPause u ∧
    ((removeMemberFromRoom s u).2).pendingBursts
        = mapDel s.pendingBursts u ∧
    ((removeMemberFromRoom s u).2).sockets = s.sockets ∧
    ((removeMemberFromRoom s u).2).chat = s.chat ∧
    ((removeMemberFromRoom s u).2).room.playback = s.room.playback ∧
    (s.room.activeControllerId = some u →
      ((removeMemberFromRoom s u).2).room.activeControllerId = none) ∧
    (¬ (s.room.activeControllerId = some u) →
      ((removeMemberFromRoom s u).2).room.activeControllerId
          = s.room.activeControllerId) := by
  unfold removeMemberFromRoom
  rw [if_pos h]
  refine ⟨rfl, ?_, ?_, ?_, rfl, rfl, rfl, rfl, ?_, ?_, ?_⟩
  · dsimp only
    split <;> rfl
  · dsimp only
    split <;> rfl
  · dsimp only
    split <;> rfl
  · dsimp only
    split <;> rfl
  · intro hc
    dsimp only
    rw [if_pos hc]
  · intro hc
    dsimp only
    rw [if_neg hc]

/-- C9: closing one of several connections a user holds in a room removes
only that connection — the room (members, revision, everything) is
untouched and nothing is broadcast; closing the user's last connection
removes the member, drops the profile, clears the pending-burst and
recent-pause entries, releases a lease held by that user, bumps the
revision by one, and emits the leave broadcast. -/
theorem c9_multi_connection (s : EngineState) (connId : ℕ) (u : String) :
    ((∃ c, c ∈ s.sockets ∧ ¬ (c.1 = connId) ∧ c.2 = u) →
      handleClose s connId u
        = ({ s with
              sockets := s.sockets.filter (fun c => ¬ (c.1 = connId)) },
           [])) ∧
    ((∀ c, c ∈ s.sockets → c.2 = u → c.1 = connId) →
      u ∈ s.room.members →
      (handleClose s connId u).2 = [Outbound.broadcast "leave" u none] ∧
      ((handleClose s connId u).1).room.members
          = s.room.members.erase u ∧
      ((handleClose s connId u).1).room.memberProfiles
          = mapDel s.room.memberProfiles u ∧
      ((handleClose s connId u).1).room.revision = s.room.revision + 1 ∧
      ((handleClose s connId u).1).recentPause = mapDel s.recentPause u ∧
      ((handleClose s connId u).1).pendingBursts
          = mapDel s.pendingBursts u ∧
      (s.room.activeControllerId = some u →
        ((handleClose s connId u).1).room.activeControllerId = none) ∧
      (¬ (s.room.activeControllerId = some u) →
        ((handleClose s connId u).1).room.activeControllerId
            = s.room.activeControllerId) ∧
      ((handleClose s connId u).1).sockets
          = s.sockets.filter (fun c => ¬ (c.1 = connId))) := by
  constructor
  · rintro ⟨c, hc, hne, hcu⟩
    unfold handleClose
    have hany : ((s.sockets.filter (fun c => ¬ (c.1 = connId))).any
        (fun c => c.2 = u)) = true := by
      rw [List.any_eq_true]
      exact ⟨c, List.mem_filter.mpr ⟨hc, by simpa using hne⟩,
        by simpa using hcu⟩
    simp only [hany, if_true]
  · intro hall hmem
    unfold handleClose
    have hany : ((s.sockets.filter (fun c => ¬ (c.1 = connId))).any
        (fun c => c.2 = u)) = false := by
      rw [List.any_eq_false]
      intro c hc
      obtain ⟨hcmem, hcne⟩ := List.mem_filter.mp hc
      have hne : ¬ (c.1 = connId) := by simpa using hcne
      simp only [decide_eq_true_eq]
      intro hcu
      exact hne (hall c hcmem hcu)
    simp only [hany, Bool.false_eq_true, if_false]
    set s1 : EngineState :=
      { s with sockets := s.sockets.filter (fun c => ¬ (c.1 = connId)) }
      with hs1
    have hgpf := getMemberProfile_fields s1.room u
    set s2 : EngineState := { s1 with room := (getMemberProfile s1.room u).2 }
      with hs2
    have hmem2 : u ∈ s2.room.members := by
      rw [hs2]
      show u ∈ ((getMemberProfile s1.room u).2).members
      rw [hgpf.2.1]
      exact hmem
    have hrm := removeMemberFromRoom_fields s2 u hmem2
    simp only [hrm.1, if_true]
    refine ⟨trivial, ?_, ?_, ?_, ?_, ?_, ?_, ?_, ?_⟩
    · rw [hrm.2.1, hs2]
      show ((getMemberProfile s1.room u).2).members.erase u = _
      rw [hgpf.2.1]
    · rw [hrm.2.2.1, hs2]
      show mapDel ((getMemberProfile s1.room u).2).memberProfiles u = _
      rw [getMemberProfile_mapDel]
    · rw [hrm.2.2.2.1, hs2]
      show ((getMemberProfile s1.room u).2).revision + 1 = _
      rw [hgpf.1]
    · rw [hrm.2.2.2.2.1]
    · rw [hrm.2.2.2.2.2.1]
    · intro hc
      refine hrm.2.2.2.2.2.2.2.2.2.1 ?_
      rw [hs2]
      show ((getMemberProfile s1.room u).2).activeControllerId = some u
      rw [hgpf.2.2.2.1]
      exact hc
    · intro hc
      rw [hrm.2.2.2.2.2.2.2.2.2.2 (by
        rw [hs2]
        show ¬ (((getMemberProfile s1.room u).2).activeControllerId
            = some u)
        rw [hgpf.2.2.2.1]
        exact hc), hs2]
      show ((getMemberProfile s1.room u).2).activeControllerId = _
      rw [hgpf.2.2.2.1]
    · rw [hrm.2.2.2.2.2.2.1]

def sampleTwoConnState : EngineState :=
  { room := sampleRoom
    chat := []
    recentPause := []
    pendingBursts := []
    sockets := [(0, "alice"), (1, "alice")] }

/-- Witness for C9 at concrete inputs: with two alice connections,
closing connection 0 only drops that connection and broadcasts nothing;
with a single alice connection, closing it removes alice, bumps the
revision to 2, releases her lease and broadcasts the leave. -/
theorem c9_witness :
    handleClose sampleTwoConnState 0 "alice"
        = ({ sampleTwoConnState with sockets := [(1, "alice")] }, []) ∧
    (handleClose sampleState 0 "alice").2
        = [Outbound.broadcast "leave" "alice" none] ∧
    ((handleClose sampleState 0 "alice").1).room.members
        = ([] : List String) ∧
    ((handleClose sampleState 0 "alice").1).room.revision = 2 ∧
    ((handleClose sampleState 0 "alice").1).room.activeControllerId
        = none := by
  have h1 := (c9_multi_connection sampleTwoConnState 0 "alice").1
    ⟨(1, "alice"), by simp [sampleTwoConnState], by simp, rfl⟩
  have h2 := (c9_multi_connection sampleState 0 "alice").2
    (by
      intro c hc hcu
      simp only [sampleState, List.mem_singleton] at hc
      rw [hc])
    (by simp [sampleState, sampleRoom])
  refine ⟨?_, h2.1, ?_, ?_, ?_⟩
  · rw [h1]
    rfl
  · rw [h2.2.1]
    rfl
  · rw [h2.2.2.2.1]
    rfl
  · exact h2.2.2.2.2.2.2.1 rfl

end StreamParty
